import Mathlib

/-!
Shallow embedding of the WatchTogether local relay server
(src/shared/protocol.ts and src/server/src/localRelay.ts).

Conventions used throughout:
* JavaScript numbers are modelled as rationals (ℚ).  The payloads that can
  carry a non-finite value relevant to the code (the playback rate, which
  the server explicitly normalizes via Number.isFinite) are modelled with
  the two-constructor type JsNum below; all other numeric inputs reach the
  server through JSON transport, which cannot encode NaN/Infinity.
* Wall-clock instants (Date.now()) are passed explicitly as a rational
  millisecond value named now.
* A JavaScript Map is modelled as an insertion-ordered association list
  with unique keys; Map.prototype.set on an existing key keeps the entry
  position, and Map.prototype.keys().next() yields the head.
* String.prototype.toUpperCase is modelled character-wise with the ASCII
  simple case mapping (Char.toUpper); every character the room-id
  normalizer keeps is ASCII A-Z0-9, for which this agrees with JS.
-/

namespace WatchTogether

/-- protocol.ts: type SyncMode = 'soft' | 'strict' -/
inductive SyncMode
  | soft
  | strict
  deriving DecidableEq, Repr

/-- Playback reasons appearing in the server source.  protocol.ts declares
'user' | 'buffer_lock' | 'media_transfer'; localRelay.ts additionally emits
the string 'startup_gate' from the startup-gate paths, so it is included. -/
inductive PlaybackReason
  | user
  | buffer_lock
  | media_transfer
  | startup_gate
  deriving DecidableEq, Repr

/-- protocol.ts: interface PlaybackState -/
structure PlaybackState where
  position : ℚ
  paused : Bool
  playbackRate : ℚ
  updatedAt : ℚ
  updatedBy : String
  reason : PlaybackReason
  deriving DecidableEq, Repr

/-- A JavaScript number as far as Number.isFinite can distinguish it:
either a finite value (modelled exactly as a rational) or a non-finite
one (NaN, Infinity, -Infinity).  The only consumer in the embedded code,
clampPlaybackRate, returns 1 for every non-finite input, so the three
non-finite values need not be distinguished. -/
inductive JsNum
  | finite (q : ℚ)
  | nonfinite
  deriving DecidableEq, Repr

/-- localRelay.ts clampPlaybackRate: non-finite values become 1, finite
values are clamped into the interval by Math.max(0.5, Math.min(2, v)). -/
def clampPlaybackRate : JsNum → ℚ
  | .nonfinite => 1
  | .finite q => max (1/2) (min 2 q)

/-- protocol.ts createInitialPlaybackState (Date.now() passed as now). -/
def createInitialPlaybackState (updatedBy : String) (now : ℚ) : PlaybackState :=
  { position := 0
    paused := true
    playbackRate := 1
    updatedAt := now
    updatedBy := updatedBy
    reason := .media_transfer }

/-- protocol.ts deriveCurrentPosition: when paused, the stored position;
otherwise position plus Math.max(0, (referenceTime - updatedAt) / 1000)
multiplied by the playback rate. -/
def deriveCurrentPosition (ps : PlaybackState) (referenceTime : ℚ) : ℚ :=
  if ps.paused then
    ps.position
  else
    ps.position + max 0 ((referenceTime - ps.updatedAt) / 1000) * ps.playbackRate

/-- protocol.ts: const ROOM_CODE_CHARS, the generated-room-code alphabet. -/
def ROOM_CODE_CHARS : String := "ABCDEFGHJKLMNPQRSTUVWXYZ23456789"

/-- A character kept by the /[^A-Z0-9]/g strip in normalizeRoomId. -/
def isUpperAlnum (c : Char) : Bool :=
  (decide ('A' ≤ c) && decide (c ≤ 'Z')) || (decide ('0' ≤ c) && decide (c ≤ '9'))

/-- The character-level body of normalizeRoomId: uppercase, strip
everything outside A-Z0-9, keep at most the first 8 characters. -/
def normalizeRoomChars (l : List Char) : List Char :=
  ((l.map Char.toUpper).filter isUpperAlnum).take 8

/-- protocol.ts normalizeRoomId:
value.toUpperCase().replace(/[^A-Z0-9]/g, '').slice(0, 8). -/
def normalizeRoomId (value : String) : String :=
  ⟨normalizeRoomChars value.toList⟩

/-- protocol.ts createRoomCode: each position picks
ROOM_CODE_CHARS[Math.floor(Math.random() * 32)].  The random draws are
supplied as a list of indices (reduced mod the alphabet size, which is
what the source's floor of random * length guarantees). -/
def createRoomCode (picks : List ℕ) : String :=
  ⟨picks.map (fun i => ROOM_CODE_CHARS.toList.getD (i % ROOM_CODE_CHARS.toList.length) 'A')⟩

/-- protocol.ts: const MAX_ROOM_MEMBERS = 6 -/
def MAX_ROOM_MEMBERS : ℕ := 6

example : normalizeRoomId "ab c-12!" = "ABC12" := by decide
example : normalizeRoomId "io01" = "IO01" := by decide
example : deriveCurrentPosition ⟨10, false, 2, 1000, "h", .user⟩ 2000 = 12 := by
  norm_num [deriveCurrentPosition]
example : deriveCurrentPosition ⟨10, false, 1, 1000, "h", .user⟩ 0 = 10 := by
  norm_num [deriveCurrentPosition]
example : deriveCurrentPosition ⟨10, true, 2, 1000, "h", .user⟩ 5000 = 10 := by
  norm_num [deriveCurrentPosition]

/-! ## JavaScript Map as an insertion-ordered association list -/

/-- Map.prototype.get -/
def mapGet {α : Type} (m : List (String × α)) (k : String) : Option α :=
  (m.find? (fun p => p.1 == k)).map (fun p => p.2)

/-- Map.prototype.set: an existing key keeps its insertion position, a new
key is appended at the end. -/
def mapSet {α : Type} (m : List (String × α)) (k : String) (v : α) : List (String × α) :=
  if m.any (fun p => p.1 == k) then
    m.map (fun p => if p.1 == k then (k, v) else p)
  else
    m ++ [(k, v)]

/-- Map.prototype.delete -/
def mapDelete {α : Type} (m : List (String × α)) (k : String) : List (String × α) :=
  m.filter (fun p => p.1 != k)

/-- Map.prototype.has -/
def mapHas {α : Type} (m : List (String × α)) (k : String) : Bool :=
  m.any (fun p => p.1 == k)

/-- The key list of a member map, in insertion order. -/
def mapKeys {α : Type} (m : List (String × α)) : List String :=
  m.map (fun p => p.1)

/-! ## Room data model (localRelay.ts interfaces) -/

/-- Member media-match states appearing in localRelay.ts. -/
inductive MediaMatchState
  | missing
  | matched
  | mismatch
  deriving DecidableEq, Repr

/-- localRelay.ts interface StoredMedia (a MediaSnapshot plus filePath). -/
structure StoredMedia where
  id : String
  name : String
  size : ℚ
  mimeType : String
  duration : Option ℚ
  sha256 : String
  selectedAt : ℚ
  filePath : Option String
  deriving DecidableEq, Repr

/-- localRelay.ts interface StoredSubtitle. -/
structure StoredSubtitle where
  id : String
  name : String
  format : String
  language : Option String
  uploadedAt : ℚ
  filePath : String
  deriving DecidableEq, Repr

/-- localRelay.ts interface TrackedRoomMember. -/
structure TrackedRoomMember where
  socketId : String
  nickname : String
  isHost : Bool
  mediaMatchState : MediaMatchState
  selectedMediaName : Option String
  selectedMediaSha256 : Option String
  selectedMediaSize : Option ℚ
  selectedMediaDuration : Option ℚ
  buffering : Bool
  startupReady : Bool
  bufferAheadSeconds : ℚ
  readyState : ℚ
  canPlayThrough : Bool
  connectedAt : ℚ
  bufferingStartedAt : Option ℚ
  lastBufferReportAt : ℚ
  deriving DecidableEq, Repr

/-- localRelay.ts interface RoomState. -/
structure RoomState where
  id : String
  roomName : String
  password : Option String
  hostSocketId : String
  members : List (String × TrackedRoomMember)
  media : Option StoredMedia
  subtitle : Option StoredSubtitle
  playbackState : PlaybackState
  syncMode : SyncMode
  startupGateActive : Bool
  pendingStartRequested : Bool
  startupBufferTargetSeconds : ℚ
  playbackResumeBufferTargetSeconds : ℚ
  resumeAfterBuffer : Bool
  lastActiveAt : ℚ
  deriving DecidableEq, Repr

/-- The member projection used in toRoomSnapshot. -/
structure MemberSnapshot where
  socketId : String
  nickname : String
  isHost : Bool
  mediaMatchState : MediaMatchState
  selectedMediaName : Option String
  buffering : Bool
  startupReady : Bool
  bufferAheadSeconds : ℚ
  readyState : ℚ
  canPlayThrough : Bool
  connectedAt : ℚ
  deriving DecidableEq, Repr

/-- The media projection emitted in snapshots and upload responses. -/
structure MediaPublicInfo where
  id : String
  name : String
  size : ℚ
  mimeType : String
  duration : Option ℚ
  sha256 : String
  selectedAt : ℚ
  deriving DecidableEq, Repr

/-- The subtitle projection emitted in snapshots. -/
structure SubtitlePublicInfo where
  id : String
  name : String
  format : String
  language : Option String
  uploadedAt : ℚ
  deriving DecidableEq, Repr

/-- protocol.ts interface RoomSnapshot, as materialized by toRoomSnapshot. -/
structure RoomSnapshot where
  roomId : String
  roomName : String
  requiresPassword : Bool
  isPreparing : Bool
  startupBufferTargetSeconds : ℚ
  members : List MemberSnapshot
  media : Option MediaPublicInfo
  subtitle : Option SubtitlePublicInfo
  playbackState : PlaybackState
  syncMode : SyncMode
  maxMembers : ℕ
  serverTime : ℚ
  deriving DecidableEq, Repr

/-- protocol.ts interface PlaybackEnvelope. -/
structure PlaybackEnvelope where
  roomId : String
  playbackState : PlaybackState
  bufferingUsers : List String
  syncMode : SyncMode
  serverTime : ℚ
  deriving DecidableEq, Repr

/-- One outgoing socket.io emission performed by a command handler. -/
inductive ServerEvent
  | roomSnapshot (snap : RoomSnapshot)
  | playbackToRoom (env : PlaybackEnvelope)
  | playbackToSocket (sid : String) (env : PlaybackEnvelope)
  | roomError (sid : String) (msg : String)
  deriving DecidableEq, Repr

/-- The patch argument of markPlayback.  The playback rate may arrive
non-finite from a client payload, hence JsNum. -/
structure PlaybackPatch where
  position : ℚ
  paused : Bool
  playbackRate : JsNum
  updatedBy : String
  deriving DecidableEq, Repr

/-! ## Sanitizers and constructors (localRelay.ts) -/

/-- String.prototype.trim (ASCII whitespace suffices for the inputs the
sanitizers see; exotic Unicode space classes are not distinguished). -/
def jsTrim (s : String) : String :=
  ⟨((s.toList.dropWhile Char.isWhitespace).reverse.dropWhile Char.isWhitespace).reverse⟩

/-- String.prototype.slice(0, n) for a non-negative n. -/
def strTake (s : String) (n : ℕ) : String :=
  ⟨s.toList.take n⟩

/-- JavaScript truthiness of a string | null value. -/
def jsTruthyStr : Option String → Bool
  | none => false
  | some s => s != ""

/-- localRelay.ts sanitizeNickname; randTag stands for the random two-digit
number interpolated into the Viewer fallback. -/
def sanitizeNickname (value : String) (randTag : String) : String :=
  let trimmed := jsTrim value
  if trimmed = "" then "Viewer-" ++ randTag else strTake trimmed 24

/-- localRelay.ts sanitizeRoomName. -/
def sanitizeRoomName (value : String) (fallbackNickname : String) : String :=
  let trimmed := jsTrim value
  if trimmed = "" then fallbackNickname ++ " 的共享放映室" else strTake trimmed 32

/-- localRelay.ts sanitizePassword. -/
def sanitizePassword (value : Option String) : Option String :=
  let trimmed := jsTrim (value.getD "")
  if trimmed = "" then none else some (strTake trimmed 64)

/-- localRelay.ts createRoom (the fresh RoomState; the registry insertion
is handled by the command step). -/
def createRoom (roomId : String) (hostSocketId : String) (roomName : String)
    (password : Option String) (now : ℚ) : RoomState :=
  { id := roomId
    roomName := roomName
    password := password
    hostSocketId := hostSocketId
    members := []
    media := none
    subtitle := none
    playbackState := createInitialPlaybackState hostSocketId now
    syncMode := .soft
    startupGateActive := false
    pendingStartRequested := false
    startupBufferTargetSeconds := 12
    playbackResumeBufferTargetSeconds := 6
    resumeAfterBuffer := false
    lastActiveAt := now }

/-- localRelay.ts createTrackedMember (Date.now() passed as now). -/
def createTrackedMember (socketId : String) (nickname : String) (isHost : Bool)
    (now : ℚ) : TrackedRoomMember :=
  { socketId := socketId
    nickname := nickname
    isHost := isHost
    mediaMatchState := .missing
    selectedMediaName := none
    selectedMediaSha256 := none
    selectedMediaSize := none
    selectedMediaDuration := none
    buffering := false
    startupReady := false
    bufferAheadSeconds := 0
    readyState := 0
    canPlayThrough := false
    connectedAt := now
    bufferingStartedAt := none
    lastBufferReportAt := 0 }

/-- localRelay.ts resetMemberPlaybackState. -/
def resetMemberPlaybackState (m : TrackedRoomMember) : TrackedRoomMember :=
  { m with
    buffering := false
    startupReady := false
    bufferAheadSeconds := 0
    readyState := 0
    canPlayThrough := false
    bufferingStartedAt := none
    lastBufferReportAt := 0 }

/-- localRelay.ts getBufferingUsers. -/
def getBufferingUsers (room : RoomState) : List String :=
  (((room.members.map (fun p => p.2)).filter (fun m => m.buffering)).map
    (fun m => m.socketId))

/-- localRelay.ts toRoomSnapshot.  The source sorts with the comparator
(left, right) => Number(right.isHost) - Number(left.isHost); since
Array.prototype.sort is stable, this is the host-first stable partition. -/
def toRoomSnapshot (room : RoomState) (now : ℚ) : RoomSnapshot :=
  let base := room.members.map (fun p =>
    { socketId := p.2.socketId
      nickname := p.2.nickname
      isHost := p.2.socketId == room.hostSocketId
      mediaMatchState := p.2.mediaMatchState
      selectedMediaName := p.2.selectedMediaName
      buffering := p.2.buffering
      startupReady := p.2.startupReady
      bufferAheadSeconds := p.2.bufferAheadSeconds
      readyState := p.2.readyState
      canPlayThrough := p.2.canPlayThrough
      connectedAt := p.2.connectedAt : MemberSnapshot })
  { roomId := room.id
    roomName := room.roomName
    requiresPassword := jsTruthyStr room.password
    isPreparing := room.startupGateActive
    startupBufferTargetSeconds := room.startupBufferTargetSeconds
    members := base.filter (fun m => m.isHost) ++ base.filter (fun m => !m.isHost)
    media := room.media.map (fun m =>
      { id := m.id, name := m.name, size := m.size, mimeType := m.mimeType
        duration := m.duration, sha256 := m.sha256, selectedAt := m.selectedAt })
    subtitle := room.subtitle.map (fun s =>
      { id := s.id, name := s.name, format := s.format, language := s.language
        uploadedAt := s.uploadedAt })
    playbackState := room.playbackState
    syncMode := room.syncMode
    maxMembers := MAX_ROOM_MEMBERS
    serverTime := now }

/-- localRelay.ts toPlaybackEnvelope. -/
def toPlaybackEnvelope (room : RoomState) (now : ℚ) : PlaybackEnvelope :=
  { roomId := room.id
    playbackState := room.playbackState
    bufferingUsers := getBufferingUsers room
    syncMode := room.syncMode
    serverTime := now }

/-! ## Buffer targets and gates (localRelay.ts) -/

/-- localRelay.ts getStartupBufferTargetSeconds (0.02 written as 2/100). -/
def getStartupBufferTargetSeconds : Option ℚ → ℚ
  | none => 12
  | some d => if d ≤ 0 then 12 else min 24 (max 8 (d * (2/100)))

/-- localRelay.ts getPlaybackResumeBufferTargetSeconds (0.01 as 1/100). -/
def getPlaybackResumeBufferTargetSeconds : Option ℚ → ℚ
  | none => 6
  | some d => if d ≤ 0 then 6 else min 10 (max 3 (d * (1/100)))

/-- localRelay.ts getCurrentPlaybackPosition. -/
def getCurrentPlaybackPosition (room : RoomState) (now : ℚ) : ℚ :=
  max 0 (deriveCurrentPosition room.playbackState now)

/-- localRelay.ts getEffectiveBufferTarget (0.8 written as 4/5).  A zero
duration is falsy in the source's !room.media?.duration guard. -/
def getEffectiveBufferTarget (room : RoomState) (baseTargetSeconds : ℚ) (now : ℚ) : ℚ :=
  match room.media with
  | none => baseTargetSeconds
  | some media =>
    match media.duration with
    | none => baseTargetSeconds
    | some d =>
      if d = 0 then baseTargetSeconds
      else
        let remainingDuration := max 0 (d - getCurrentPlaybackPosition room now)
        if remainingDuration ≤ 0 then 0
        else max (4/5) (min baseTargetSeconds remainingDuration)

/-- localRelay.ts isMemberReadyForBufferTarget. -/
def isMemberReadyForBufferTarget (room : RoomState) (member : TrackedRoomMember)
    (baseTargetSeconds : ℚ) (now : ℚ) : Bool :=
  if room.media.isNone then true
  else if member.canPlayThrough || decide (4 ≤ member.readyState) then true
  else
    decide (3 ≤ member.readyState) &&
      decide (getEffectiveBufferTarget room baseTargetSeconds now ≤ member.bufferAheadSeconds)

/-- localRelay.ts isMemberStartupReady. -/
def isMemberStartupReady (room : RoomState) (member : TrackedRoomMember) (now : ℚ) : Bool :=
  if room.media.isNone || !room.startupGateActive then true
  else if member.mediaMatchState = .matched then
    isMemberReadyForBufferTarget room member room.startupBufferTargetSeconds now
  else false

/-- localRelay.ts isMemberReadyToResumePlayback. -/
def isMemberReadyToResumePlayback (room : RoomState) (member : TrackedRoomMember)
    (now : ℚ) : Bool :=
  decide (member.mediaMatchState = .matched) && !member.buffering &&
    isMemberReadyForBufferTarget room member room.playbackResumeBufferTargetSeconds now

/-- localRelay.ts syncMemberStartupReadiness.  The source loop mutates each
member's startupReady in place; isMemberStartupReady never reads the
startupReady field or any room field the loop changes, so the batch map is
the same function. -/
def syncMemberStartupReadiness (room : RoomState) (now : ℚ) : RoomState :=
  { room with
    members := room.members.map (fun p =>
      (p.1, { p.2 with startupReady := isMemberStartupReady room p.2 now })) }

/-- localRelay.ts areAllMembersStartupReady.  The source mutates the room
(via syncMemberStartupReadiness) before returning the boolean, so the
updated room is returned alongside. -/
def areAllMembersStartupReady (room : RoomState) (now : ℚ) : RoomState × Bool :=
  if room.media.isNone || room.members.isEmpty then (room, false)
  else
    let r := syncMemberStartupReadiness room now
    (r, r.members.all (fun p => p.2.startupReady))

/-- localRelay.ts areAllMembersReadyToResumePlayback. -/
def areAllMembersReadyToResumePlayback (room : RoomState) (now : ℚ) : Bool :=
  if room.media.isNone || room.members.isEmpty then false
  else room.members.all (fun p => isMemberReadyToResumePlayback room p.2 now)

/-- localRelay.ts markPlayback: the only playback-state mutator. -/
def markPlayback (room : RoomState) (patch : PlaybackPatch)
    (reason : PlaybackReason) (now : ℚ) : RoomState :=
  { room with
    playbackState :=
      { position := max 0 patch.position
        paused := patch.paused
        playbackRate := clampPlaybackRate patch.playbackRate
        updatedAt := now
        updatedBy := patch.updatedBy
        reason := reason }
    lastActiveAt := now }

/-- localRelay.ts reassignHostIfNeeded.  members.keys().next().value is the
first key in insertion order; the if (nextHost) guard is JS truthiness, so
an empty-string key would be skipped like the undefined of an empty map. -/
def reassignHostIfNeeded (room : RoomState) : RoomState :=
  if mapHas room.members room.hostSocketId then room
  else
    match room.members.head? with
    | some p => if p.1 != "" then { room with hostSocketId := p.1 } else room
    | none => room

/-- localRelay.ts getSoftBufferGraceMs (milliseconds). -/
def getSoftBufferGraceMs (room : RoomState) (now : ℚ) : ℚ :=
  match room.media with
  | none => 900
  | some media =>
    match media.duration with
    | none => 900
    | some d =>
      if d = 0 then 900
      else
        let remainingDuration := max 0 (d - getCurrentPlaybackPosition room now)
        if remainingDuration ≤ 5 then 0
        else if remainingDuration ≤ 15 then 350
        else 900

/-- localRelay.ts shouldPauseForBuffering. -/
def shouldPauseForBuffering (room : RoomState) (now : ℚ) : Bool :=
  let bufferingMembers := (room.members.map (fun p => p.2)).filter (fun m => m.buffering)
  if bufferingMembers.isEmpty then false
  else if room.syncMode = .strict then true
  else
    let graceMs := getSoftBufferGraceMs room now
    bufferingMembers.any (fun m =>
      if m.readyState < 3 then true
      else
        match m.bufferingStartedAt with
        | none => false
        | some t => decide (graceMs ≤ now - t))

/-- localRelay.ts applyBuffering.  bufferingUsers[0] is only read on the
pause branch, where shouldPauseForBuffering guarantees the list is
non-empty; headD "" stands for that indexing. -/
def applyBuffering (room : RoomState) (now : ℚ) : RoomState × List ServerEvent :=
  let bufferingUsers := getBufferingUsers room
  if shouldPauseForBuffering room now && !room.playbackState.paused then
    let r := markPlayback room
      { position := deriveCurrentPosition room.playbackState now
        paused := true
        playbackRate := .finite room.playbackState.playbackRate
        updatedBy := bufferingUsers.headD "" }
      .buffer_lock now
    let r := { r with resumeAfterBuffer := true }
    (r, [.playbackToRoom (toPlaybackEnvelope r now)])
  else if room.resumeAfterBuffer && bufferingUsers.isEmpty &&
      areAllMembersReadyToResumePlayback room now then
    let r := markPlayback room
      { position := room.playbackState.position
        paused := false
        playbackRate := .finite room.playbackState.playbackRate
        updatedBy := room.hostSocketId }
      .buffer_lock now
    let r := { r with resumeAfterBuffer := false }
    (r, [.playbackToRoom (toPlaybackEnvelope r now)])
  else (room, [])

/-- localRelay.ts syncStartupGate.  The snapshot is emitted before the gate
is disarmed, so it is materialized from the pre-disarm room. -/
def syncStartupGate (room : RoomState) (now : ℚ) : RoomState × List ServerEvent :=
  if !room.startupGateActive then (room, [])
  else
    let ra := areAllMembersStartupReady room now
    let r := ra.1
    if !ra.2 then (r, [.roomSnapshot (toRoomSnapshot r now)])
    else
      let snapEvent := ServerEvent.roomSnapshot (toRoomSnapshot r now)
      if !r.pendingStartRequested || !r.playbackState.paused then (r, [snapEvent])
      else
        let r2 := { r with startupGateActive := false, pendingStartRequested := false }
        let r3 := markPlayback r2
          { position := r2.playbackState.position
            paused := false
            playbackRate := .finite r2.playbackState.playbackRate
            updatedBy := r2.hostSocketId }
          .startup_gate now
        (r3, [snapEvent, .playbackToRoom (toPlaybackEnvelope r3 now)])

/-! ## Socket command handlers (localRelay.ts io.on('connection')) -/

/-- The client:buffering payload (fields the handler reads; the ?? 0
defaults are modelled by Option). -/
structure BufferingPayloadIn where
  buffering : Bool
  bufferAheadSeconds : Option ℚ
  readyState : Option ℚ
  canPlayThrough : Bool
  deriving DecidableEq, Repr

/-- The member-record mutation performed by socket.on('client:buffering'):
telemetry fields clamped at 0 with ?? 0 defaults, lastBufferReportAt
stamped, bufferingStartedAt sampled on the rising edge and cleared on the
falling edge. -/
def bufferingUpdatedMember (member : TrackedRoomMember) (p : BufferingPayloadIn)
    (now : ℚ) : TrackedRoomMember :=
  { member with
    buffering := p.buffering
    bufferAheadSeconds := max 0 (p.bufferAheadSeconds.getD 0)
    readyState := max 0 (p.readyState.getD 0)
    canPlayThrough := p.canPlayThrough
    lastBufferReportAt := now
    bufferingStartedAt :=
      if p.buffering then some (member.bufferingStartedAt.getD now) else none }

/-- The room after the member mutation of socket.on('client:buffering')
and the room.lastActiveAt = now stamp. -/
def bufferingUpdatedRoom (room : RoomState) (sid : String) (member : TrackedRoomMember)
    (p : BufferingPayloadIn) (now : ℚ) : RoomState :=
  { room with
    members := mapSet room.members sid (bufferingUpdatedMember member p now)
    lastActiveAt := now }

/-- localRelay.ts socket.on('client:buffering').  The room was already
resolved through the registry; a missing member is the silent-drop path. -/
def handleClientBuffering (room : RoomState) (sid : String) (p : BufferingPayloadIn)
    (now : ℚ) : RoomState × List ServerEvent :=
  match mapGet room.members sid with
  | none => (room, [])
  | some member =>
    let room1 := bufferingUpdatedRoom room sid member p now
    let room2 := syncMemberStartupReadiness room1 now
    let snapEvent := ServerEvent.roomSnapshot (toRoomSnapshot room2 now)
    let g := syncStartupGate room2 now
    let b := applyBuffering g.1 now
    (b.1, snapEvent :: g.2 ++ b.2)

/-- The playback:control payload. -/
structure PlaybackControlPayloadIn where
  position : ℚ
  paused : Bool
  playbackRate : JsNum
  reason : PlaybackReason
  deriving DecidableEq, Repr

/-- The tail of the playback:control handler after the startup-gate block
(the code after the gate block's fall-through): the strict-buffering
silent drop, else markPlayback plus the envelope broadcast. -/
def playbackControlFinish (room : RoomState) (sid : String)
    (p : PlaybackControlPayloadIn) (evs : List ServerEvent) (now : ℚ) :
    RoomState × List ServerEvent :=
  if room.syncMode = .strict && !(getBufferingUsers room).isEmpty && !p.paused then
    (room, evs)
  else
    let r := markPlayback room
      { position := p.position, paused := p.paused,
        playbackRate := p.playbackRate, updatedBy := sid }
      p.reason now
    (r, evs ++ [.playbackToRoom (toPlaybackEnvelope r now)])

/-- localRelay.ts socket.on('playback:control'). -/
def handlePlaybackControl (room : RoomState) (sid : String)
    (p : PlaybackControlPayloadIn) (now : ℚ) : RoomState × List ServerEvent :=
  if !(mapHas room.members sid) || room.media.isNone then (room, [])
  else if !p.paused && room.startupGateActive then
    let ra := areAllMembersStartupReady room now
    if !ra.2 then
      let r := { ra.1 with pendingStartRequested := true }
      let r := markPlayback r
        { position := p.position, paused := true,
          playbackRate := p.playbackRate, updatedBy := sid }
        .startup_gate now
      (r, [.roomSnapshot (toRoomSnapshot r now), .playbackToRoom (toPlaybackEnvelope r now)])
    else
      let r := { ra.1 with startupGateActive := false, pendingStartRequested := false }
      playbackControlFinish r sid p [.roomSnapshot (toRoomSnapshot r now)] now
  else
    playbackControlFinish room sid p [] now

/-- The client media descriptor of a room:select-media payload. -/
structure MediaDescriptorIn where
  id : String
  name : String
  size : ℚ
  mimeType : String
  duration : Option ℚ
  sha256 : String
  deriving DecidableEq, Repr

/-- localRelay.ts matchesRoomMedia (0.25 written as 1/4). -/
def matchesRoomMedia (roomMedia : StoredMedia) (selectedMedia : MediaPublicInfo) : Bool :=
  roomMedia.sha256 == selectedMedia.sha256 &&
    decide (roomMedia.size = selectedMedia.size) &&
    decide (|roomMedia.duration.getD 0 - selectedMedia.duration.getD 0| ≤ 1/4)

/-- localRelay.ts applyNewRoomMedia.  deleteMedia/deleteSubtitle drop the
previous descriptors (the on-disk unlink is outside the state model). -/
def applyNewRoomMedia (room : RoomState) (hostSocketId : String)
    (media : MediaPublicInfo) (now : ℚ) : RoomState :=
  let members := room.members.map (fun p =>
    let m := resetMemberPlaybackState p.2
    let matchState :=
      if m.socketId == hostSocketId then MediaMatchState.matched
      else if m.selectedMediaSha256 == some media.sha256 &&
          decide (m.selectedMediaSize = some media.size) &&
          decide (|m.selectedMediaDuration.getD 0 - media.duration.getD 0| ≤ 1/4) then
        MediaMatchState.matched
      else MediaMatchState.missing
    let selName :=
      if m.socketId == hostSocketId then some media.name
      else if matchState = MediaMatchState.matched then m.selectedMediaName
      else none
    (p.1, { m with mediaMatchState := matchState, selectedMediaName := selName }))
  let stored : StoredMedia :=
    { id := media.id, name := media.name, size := media.size
      mimeType := media.mimeType, duration := media.duration, sha256 := media.sha256
      selectedAt := media.selectedAt, filePath := none }
  { room with
    media := some stored
    subtitle := none
    members := members
    playbackState := createInitialPlaybackState hostSocketId now
    startupGateActive := true
    pendingStartRequested := false
    startupBufferTargetSeconds := getStartupBufferTargetSeconds media.duration
    playbackResumeBufferTargetSeconds := getPlaybackResumeBufferTargetSeconds media.duration
    resumeAfterBuffer := false
    lastActiveAt := now }

/-- localRelay.ts socket.on('room:select-media'). -/
def handleSelectMedia (room : RoomState) (sid : String) (mediaIn : MediaDescriptorIn)
    (now : ℚ) : RoomState × List ServerEvent :=
  match mapGet room.members sid with
  | none => (room, [])
  | some member =>
    let selectedMedia : MediaPublicInfo :=
      { id := mediaIn.id, name := mediaIn.name, size := mediaIn.size
        mimeType := mediaIn.mimeType, duration := mediaIn.duration
        sha256 := mediaIn.sha256, selectedAt := now }
    let member1 := resetMemberPlaybackState { member with
      selectedMediaName := some selectedMedia.name
      selectedMediaSha256 := some selectedMedia.sha256
      selectedMediaSize := some selectedMedia.size
      selectedMediaDuration := selectedMedia.duration }
    let room1 := { room with members := mapSet room.members sid member1 }
    if sid == room1.hostSocketId then
      let r := applyNewRoomMedia room1 sid selectedMedia now
      (r, [.roomSnapshot (toRoomSnapshot r now), .playbackToRoom (toPlaybackEnvelope r now)])
    else
      match room1.media with
      | none =>
        let room2 := { room1 with
          members := mapSet room1.members sid { member1 with mediaMatchState := .missing }
          lastActiveAt := now }
        (room2, [.roomSnapshot (toRoomSnapshot room2 now),
                 .roomError sid "等待房主先选择本地片源"])
      | some roomMedia =>
        let newState :=
          if matchesRoomMedia roomMedia selectedMedia then MediaMatchState.matched
          else MediaMatchState.mismatch
        let room2 := { room1 with
          members := mapSet room1.members sid { member1 with mediaMatchState := newState }
          lastActiveAt := now }
        let room3 := syncMemberStartupReadiness room2 now
        let snapEvent := ServerEvent.roomSnapshot (toRoomSnapshot room3 now)
        let g := syncStartupGate room3 now
        let b := applyBuffering g.1 now
        let errs :=
          if newState = MediaMatchState.mismatch then
            [ServerEvent.roomError sid "本地文件与房主片源不一致，请重新选择"]
          else []
        (b.1, snapEvent :: g.2 ++ b.2 ++ errs)

/-- localRelay.ts socket.on('room:config'). -/
def handleRoomConfig (room : RoomState) (sid : String) (mode : SyncMode)
    (now : ℚ) : RoomState × List ServerEvent :=
  if room.hostSocketId != sid then (room, [])
  else
    let room1 := { room with syncMode := mode, lastActiveAt := now }
    let step :=
      if mode = SyncMode.soft then ({ room1 with resumeAfterBuffer := false }, ([] : List ServerEvent))
      else applyBuffering room1 now
    (step.1, step.2 ++ [.roomSnapshot (toRoomSnapshot step.1 now),
                        .playbackToRoom (toPlaybackEnvelope step.1 now)])

/-- localRelay.ts removeMemberFromRoom (the per-room part; the
socketToRoom bookkeeping is the membership guard in handleLeave). -/
def removeMemberFromRoom (room : RoomState) (sid : String) (now : ℚ) :
    RoomState × List ServerEvent :=
  let room1 := reassignHostIfNeeded
    { room with members := mapDelete room.members sid, lastActiveAt := now }
  if room1.members.isEmpty then (room1, [])
  else
    let room2 := syncMemberStartupReadiness room1 now
    let snapEvent := ServerEvent.roomSnapshot (toRoomSnapshot room2 now)
    let g := syncStartupGate room2 now
    let b := applyBuffering g.1 now
    (b.1, snapEvent :: g.2 ++ b.2)

/-- socket.on('room:leave') / socket.on('disconnect'): removeMemberFromRoom
runs only for a socket the socketToRoom map sends to this room, which for a
single room is exactly current membership. -/
def handleLeave (room : RoomState) (sid : String) (now : ℚ) :
    RoomState × List ServerEvent :=
  if mapHas room.members sid then removeMemberFromRoom room sid now else (room, [])

/-- The room:join payload. -/
structure JoinPayloadIn where
  nickname : String
  password : Option String
  roomName : Option String
  deriving DecidableEq, Repr

/-- protocol.ts interface JoinRoomResult, restricted to the shapes the
handler produces. -/
inductive JoinRoomResult
  | ok (snapshot : RoomSnapshot)
  | error (msg : String)
  deriving DecidableEq, Repr

/-- The body of socket.on('room:join') after the room was ensured (looked
up or created) and the password check passed: the room-full guard, the
member record creation, the join-into-active-room startup gate, and the
response and broadcasts. -/
def joinEnsuredRoom (room : RoomState) (sid : String) (nickname : String) (now : ℚ) :
    Option RoomState × JoinRoomResult × List ServerEvent :=
  let memberAlreadyJoined := mapHas room.members sid
  let memberCountBeforeJoin := room.members.length
  let wasPlaying := room.media.isSome && !room.playbackState.paused
  if !memberAlreadyJoined && decide (MAX_ROOM_MEMBERS ≤ room.members.length) then
    (some room, .error "房间人数已满", [])
  else
    let member0 := createTrackedMember sid nickname (sid == room.hostSocketId) now
    let member := { member0 with
      startupReady := room.media.isNone || !room.startupGateActive }
    let room1 := { room with members := mapSet room.members sid member }
    let gated := room1.media.isSome && !memberAlreadyJoined &&
      decide (0 < memberCountBeforeJoin)
    let room2 :=
      if gated then
        let r := syncMemberStartupReadiness
          { room1 with startupGateActive := true, pendingStartRequested := wasPlaying } now
        if wasPlaying then
          markPlayback r
            { position := getCurrentPlaybackPosition r now
              paused := true
              playbackRate := .finite r.playbackState.playbackRate
              updatedBy := r.hostSocketId }
            .startup_gate now
        else r
      else room1
    let pausedForJoinGate := gated && wasPlaying
    let room3 := { room2 with lastActiveAt := now }
    let snap := toRoomSnapshot room3 now
    let playbackEvent :=
      if pausedForJoinGate then ServerEvent.playbackToRoom (toPlaybackEnvelope room3 now)
      else ServerEvent.playbackToSocket sid (toPlaybackEnvelope room3 now)
    (some room3, .ok snap, [.roomSnapshot snap, playbackEvent])

/-- localRelay.ts socket.on('room:join') for one room: existing is the
registry entry under the (already normalized or generated) room id;
randNickTag stands for the random digits of the Viewer fallback. -/
def handleJoin (roomId : String) (existing : Option RoomState) (sid : String)
    (payload : JoinPayloadIn) (randNickTag : String) (now : ℚ) :
    Option RoomState × JoinRoomResult × List ServerEvent :=
  let nickname := sanitizeNickname payload.nickname randNickTag
  let requestedPassword := sanitizePassword payload.password
  let passwordRejected :=
    match existing with
    | none => false
    | some r => jsTruthyStr r.password && r.password != requestedPassword
  if passwordRejected then
    (existing, .error "房间密码不正确", [])
  else
    let room :=
      match existing with
      | some r => r
      | none => createRoom roomId sid
          (sanitizeRoomName (payload.roomName.getD "") nickname) requestedPassword now
    joinEnsuredRoom room sid nickname now

/-- The final descriptor values of a media upload (after the optional
ffmpeg compatibility proxy, which only rewrites these inputs). -/
structure UploadedFileIn where
  name : String
  path : String
  size : ℚ
  mimeType : String
  duration : Option ℚ
  deriving DecidableEq, Repr

/-- localRelay.ts app.post('/api/rooms/:roomId/media'), the room-state part
(lines 1116-1147) with the resolveHostRoom guard.  freshMediaId and
freshSha are the two randomUUID() draws of the handler. -/
def handleMediaUpload (room : RoomState) (sid : String) (file : UploadedFileIn)
    (freshMediaId : String) (freshSha : String) (now : ℚ) :
    RoomState × List ServerEvent :=
  if !(mapHas room.members sid) || room.hostSocketId != sid then (room, [])
  else
    let media : StoredMedia :=
      { id := freshMediaId, name := file.name, size := file.size
        mimeType := file.mimeType, duration := file.duration
        sha256 := freshSha, selectedAt := now, filePath := some file.path }
    let members := room.members.map (fun p =>
      let m := resetMemberPlaybackState p.2
      let isUploader := m.socketId == sid
      (p.1, { m with
        mediaMatchState := if isUploader then MediaMatchState.matched else .missing
        selectedMediaName := if isUploader then some file.name else none
        selectedMediaSha256 := if isUploader then some freshSha else none
        selectedMediaSize := if isUploader then some file.size else none
        selectedMediaDuration := if isUploader then file.duration else none }))
    let room1 := { room with
      media := some media
      subtitle := none
      members := members
      playbackState := createInitialPlaybackState sid now
      startupGateActive := true
      pendingStartRequested := false
      startupBufferTargetSeconds := getStartupBufferTargetSeconds media.duration
      playbackResumeBufferTargetSeconds := getPlaybackResumeBufferTargetSeconds media.duration
      resumeAfterBuffer := false
      lastActiveAt := now }
    (room1, [.roomSnapshot (toRoomSnapshot room1 now),
             .playbackToRoom (toPlaybackEnvelope room1 now)])

/-! ## Command sequences on a single room -/

/-- The mutating commands a single room can receive. -/
inductive RoomCommand
  | join (sid : String) (payload : JoinPayloadIn) (randNickTag : String)
  | leave (sid : String)
  | selectMedia (sid : String) (media : MediaDescriptorIn)
  | playbackControl (sid : String) (p : PlaybackControlPayloadIn)
  | clientBuffering (sid : String) (p : BufferingPayloadIn)
  | roomConfig (sid : String) (mode : SyncMode)
  | mediaUpload (sid : String) (file : UploadedFileIn) (mediaId : String) (sha : String)
  deriving Repr

/-- One command step on a room registry slot (none = the room does not
exist; join may create it). -/
def stepRoom (roomId : String) (st : Option RoomState) (c : RoomCommand)
    (now : ℚ) : Option RoomState :=
  match c with
  | .join sid payload randNickTag => (handleJoin roomId st sid payload randNickTag now).1
  | .leave sid => st.map (fun r => (handleLeave r sid now).1)
  | .selectMedia sid media => st.map (fun r => (handleSelectMedia r sid media now).1)
  | .playbackControl sid p => st.map (fun r => (handlePlaybackControl r sid p now).1)
  | .clientBuffering sid p => st.map (fun r => (handleClientBuffering r sid p now).1)
  | .roomConfig sid mode => st.map (fun r => (handleRoomConfig r sid mode now).1)
  | .mediaUpload sid file mediaId sha =>
      st.map (fun r => (handleMediaUpload r sid file mediaId sha now).1)

/-- Run a timed command sequence on one room, starting from no room. -/
def runRoom (roomId : String) (cmds : List (RoomCommand × ℚ)) : Option RoomState :=
  cmds.foldl (fun st c => stepRoom roomId st c.1 c.2) none

/-! ## Range-capable media byte endpoint
(localRelay.ts app.get('/api/rooms/:roomId/media/:mediaId'), lines
1246-1285: the response decision as a function of the file size and the
Range header; the 404 guards and the actual byte streaming are I/O outside
the model). -/

/-- The longest leading run of ASCII digits (the greedy match of a \d*
group; since '-' is not a digit, the regex engine never backtracks into
the group). -/
def takeDigits : List Char → List Char × List Char
  | [] => ([], [])
  | c :: rest =>
    if c.isDigit then
      let p := takeDigits rest
      (c :: p.1, p.2)
    else ([], c :: rest)

/-- Try the pattern bytes=(\d*)-(\d*) anchored at the head of the list. -/
def matchBytesRangeHere (l : List Char) : Option (List Char × List Char) :=
  if ("bytes=".toList).isPrefixOf l then
    let afterEq := l.drop 6
    let g1 := takeDigits afterEq
    match g1.2 with
    | '-' :: afterDash =>
      let g2 := takeDigits afterDash
      some (g1.1, g2.1)
    | _ => none
  else none

/-- /bytes=(\d*)-(\d*)/.exec: the first position where the pattern
matches, scanning left to right. -/
def execBytesRange : List Char → Option (List Char × List Char)
  | [] => none
  | c :: rest =>
    match matchBytesRangeHere (c :: rest) with
    | some g => some g
    | none => execBytesRange rest

/-- Number(digitString) for a non-empty digit string (exact; the float
rounding of JS numbers above 2^53 is not modelled, the sources compare
the result only against file sizes). -/
def digitsToNat (l : List Char) : ℕ :=
  l.foldl (fun acc c => acc * 10 + (c.toNat - '0'.toNat)) 0

/-- The response of the media byte endpoint as far as status and range
headers go. -/
inductive RangeResult
  | fullBody (contentLength : ℕ)
  | partialBody (rangeStart rangeEnd : ℤ) (contentRange : String) (contentLength : ℤ)
  | notSatisfiable
  deriving DecidableEq, Repr

/-- The Content-Range header value: bytes start-end/size. -/
def contentRangeHeader (start e : ℤ) (fileSize : ℕ) : String :=
  "bytes " ++ toString start ++ "-" ++ toString e ++ "/" ++ toString fileSize

/-- The range-decision logic of the media GET endpoint.  A missing header
and an empty-string header are both falsy in the !range guard and stream
the whole file with status 200. -/
def handleMediaRange (fileSize : ℕ) (range : Option String) : RangeResult :=
  match range with
  | none => .fullBody fileSize
  | some r =>
    if r = "" then .fullBody fileSize
    else
      match execBytesRange r.toList with
      | none => .notSatisfiable
      | some g =>
        let start : ℤ := if g.1 = [] then 0 else (digitsToNat g.1 : ℤ)
        let e : ℤ := if g.2 = [] then (fileSize : ℤ) - 1 else (digitsToNat g.2 : ℤ)
        if start > e ∨ e ≥ (fileSize : ℤ) then .notSatisfiable
        else .partialBody start e (contentRangeHeader start e fileSize) (e - start + 1)

example : handleMediaRange 10000 (some "bytes=0-499") =
    .partialBody 0 499 "bytes 0-499/10000" 500 := by decide
example : handleMediaRange 10000 (some "bytes=-") =
    .partialBody 0 9999 "bytes 0-9999/10000" 10000 := by decide
example : handleMediaRange 10000 (some "bytes=20000-") = .notSatisfiable := by decide
example : handleMediaRange 10000 none = .fullBody 10000 := by decide
example : handleMediaRange 10000 (some "bytes=abc") = .notSatisfiable := by decide

/-! ## Helper lemmas -/

theorem map_eq_self_of_forall {α : Type} {f : α → α} :
    ∀ l : List α, (∀ a ∈ l, f a = a) → l.map f = l
  | [], _ => rfl
  | a :: l, h => by
    simp only [List.map_cons, List.cons.injEq]
    exact ⟨h a (List.mem_cons_self a l), map_eq_self_of_forall l
      (fun b hb => h b (List.mem_cons_of_mem a hb))⟩

theorem toUpper_of_isUpperAlnum {c : Char} (h : isUpperAlnum c = true) :
    c.toUpper = c := by
  have hn : c.toNat ≤ 90 ∨ c.toNat ≤ 57 := by
    unfold isUpperAlnum at h
    rcases Bool.or_eq_true_iff.mp h with h1 | h1
    · exact Or.inl (of_decide_eq_true (Bool.and_eq_true_iff.mp h1).2)
    · exact Or.inr (of_decide_eq_true (Bool.and_eq_true_iff.mp h1).2)
  have hno : ¬(97 ≤ c.toNat ∧ c.toNat ≤ 122) := by omega
  simp [Char.toUpper, hno]

theorem mem_normalizeRoomChars {c : Char} {l : List Char}
    (h : c ∈ normalizeRoomChars l) : isUpperAlnum c = true := by
  unfold normalizeRoomChars at h
  exact List.of_mem_filter (List.take_subset 8 _ h)

theorem normalizeRoomChars_length (l : List Char) :
    (normalizeRoomChars l).length ≤ 8 := by
  unfold normalizeRoomChars
  rw [List.length_take]
  exact min_le_left _ _

theorem normalizeRoomChars_idem (l : List Char) :
    normalizeRoomChars (normalizeRoomChars l) = normalizeRoomChars l := by
  have hall : ∀ c ∈ normalizeRoomChars l, isUpperAlnum c = true :=
    fun c hc => mem_normalizeRoomChars hc
  have h1 : (normalizeRoomChars l).map Char.toUpper = normalizeRoomChars l :=
    map_eq_self_of_forall _ (fun c hc => toUpper_of_isUpperAlnum (hall c hc))
  have h2 : (normalizeRoomChars l).filter isUpperAlnum = normalizeRoomChars l :=
    List.filter_eq_self.mpr hall
  show (((normalizeRoomChars l).map Char.toUpper).filter isUpperAlnum).take 8 =
    normalizeRoomChars l
  rw [h1, h2, List.take_of_length_le (normalizeRoomChars_length l)]

/-- C9, counterexample: normalizeRoomId keeps I, O, 0 and 1, which are not
in the room-code alphabet; normalizeRoomId "io01" = "IO01". -/
theorem normalizeRoomId_alphabet_cex :
    normalizeRoomId "io01" = "IO01" ∧
      ((normalizeRoomId "io01").toList.all
        (fun c => ROOM_CODE_CHARS.toList.contains c)) = false := by
  constructor <;> decide

/-- C9 (amended): normalizeRoomId is idempotent, its result has length at
most 8, and every character of the result is an uppercase ASCII letter or
digit (A-Z0-9; the restricted room-code alphabet without I, O, 0, 1 is only
used by createRoomCode when generating fresh codes). -/
theorem normalizeRoomId_normal_form (x : String) :
    normalizeRoomId (normalizeRoomId x) = normalizeRoomId x ∧
    (normalizeRoomId x).length ≤ 8 ∧
    ∀ c ∈ (normalizeRoomId x).toList, isUpperAlnum c = true := by
  refine ⟨?_, ?_, ?_⟩
  · show (⟨normalizeRoomChars (normalizeRoomChars x.toList)⟩ : String) =
      (⟨normalizeRoomChars x.toList⟩ : String)
    rw [normalizeRoomChars_idem]
  · show (normalizeRoomChars x.toList).length ≤ 8
    exact normalizeRoomChars_length _
  · intro c hc
    exact mem_normalizeRoomChars hc

/-- C9, witness instance of the amended theorem at a concrete input. -/
theorem normalizeRoomId_normal_form_witness :
    normalizeRoomId (normalizeRoomId "watch together 2024!") =
      normalizeRoomId "watch together 2024!" ∧
    (normalizeRoomId "watch together 2024!").length ≤ 8 ∧
    ∀ c ∈ (normalizeRoomId "watch together 2024!").toList, isUpperAlnum c = true :=
  normalizeRoomId_normal_form "watch together 2024!"

/-- C3, counterexample: with referenceTime before updatedAt the claimed
formula gives position + (0 - 1000)/1000 × rate = 9, but the code clamps
the elapsed time at 0 and returns the stored position 10. -/
theorem deriveCurrentPosition_formula_cex :
    deriveCurrentPosition
        { position := 10, paused := false, playbackRate := 1, updatedAt := 1000,
          updatedBy := "h", reason := .user } 0 ≠
      10 + ((0 - 1000) / 1000) * 1 := by
  norm_num [deriveCurrentPosition]

/-- C3 (amended): while paused the derived position is the stored
position; while unpaused it is position plus max(0, (referenceTime −
updatedAt)/1000) × rate, which agrees with the claimed linear formula
exactly when referenceTime ≥ updatedAt. -/
theorem deriveCurrentPosition_spec (ps : PlaybackState) (referenceTime : ℚ) :
    (ps.paused = true → deriveCurrentPosition ps referenceTime = ps.position) ∧
    (ps.paused = false →
      deriveCurrentPosition ps referenceTime =
        ps.position + max 0 ((referenceTime - ps.updatedAt) / 1000) * ps.playbackRate) ∧
    (ps.paused = false → ps.updatedAt ≤ referenceTime →
      deriveCurrentPosition ps referenceTime =
        ps.position + ((referenceTime - ps.updatedAt) / 1000) * ps.playbackRate) := by
  refine ⟨fun h => by simp [deriveCurrentPosition, h], fun h => by
    simp [deriveCurrentPosition, h], fun h hle => ?_⟩
  simp only [deriveCurrentPosition, h, Bool.false_eq_true, if_false]
  have hnn : 0 ≤ (referenceTime - ps.updatedAt) / 1000 :=
    div_nonneg (sub_nonneg.mpr hle) (by norm_num)
  rw [max_eq_right hnn]

/-- C3, witness instance of the amended theorem at concrete inputs. -/
theorem deriveCurrentPosition_spec_witness :
    deriveCurrentPosition
        { position := 3, paused := false, playbackRate := 2, updatedAt := 1000,
          updatedBy := "h", reason := .user } 2000 =
      3 + ((2000 - 1000) / 1000) * 2 ∧
    deriveCurrentPosition
        { position := 7, paused := true, playbackRate := 1, updatedAt := 0,
          updatedBy := "h", reason := .user } 5000 = 7 :=
  ⟨(deriveCurrentPosition_spec
      { position := 3, paused := false, playbackRate := 2, updatedAt := 1000,
        updatedBy := "h", reason := .user } 2000).2.2 rfl (by norm_num),
   (deriveCurrentPosition_spec
      { position := 7, paused := true, playbackRate := 1, updatedAt := 0,
        updatedBy := "h", reason := .user } 5000).1 rfl⟩

theorem takeDigits_append_nondigit {g : List Char} (c : Char) (rest : List Char)
    (h : ∀ d ∈ g, d.isDigit = true) (hc : c.isDigit = false) :
    takeDigits (g ++ c :: rest) = (g, c :: rest) := by
  induction g with
  | nil => simp [takeDigits, hc]
  | cons a as ih =>
    have ha : a.isDigit = true := h a (List.mem_cons_self a as)
    have ih2 := ih (fun d hd => h d (List.mem_cons_of_mem a hd))
    simp [takeDigits, ha, ih2]

theorem takeDigits_all_digits {g : List Char} (h : ∀ d ∈ g, d.isDigit = true) :
    takeDigits g = (g, []) := by
  induction g with
  | nil => rfl
  | cons a as ih =>
    have ha : a.isDigit = true := h a (List.mem_cons_self a as)
    have ih2 := ih (fun d hd => h d (List.mem_cons_of_mem a hd))
    simp [takeDigits, ha, ih2]

theorem execBytesRange_header (g1 g2 : List Char)
    (h1 : ∀ d ∈ g1, d.isDigit = true) (h2 : ∀ d ∈ g2, d.isDigit = true) :
    execBytesRange ("bytes=".toList ++ g1 ++ '-' :: g2) = some (g1, g2) := by
  have ht1 : takeDigits (g1 ++ '-' :: g2) = (g1, '-' :: g2) :=
    takeDigits_append_nondigit '-' g2 h1 (by decide)
  have ht2 : takeDigits g2 = (g2, []) := takeDigits_all_digits h2
  show execBytesRange
    ('b' :: ('y' :: 't' :: 'e' :: 's' :: '=' :: (g1 ++ '-' :: g2))) = some (g1, g2)
  simp [execBytesRange, matchBytesRangeHere, List.isPrefixOf, ht1, ht2]

/-- A Range header of the shape bytes=g1-g2 with explicit digit groups. -/
def rangeHeaderOf (g1 g2 : List Char) : String :=
  ⟨"bytes=".toList ++ g1 ++ '-' :: g2⟩

/-- The endpoint's start value: 0 when the first group is empty. -/
def rangeStartOf (g1 : List Char) : ℤ :=
  if g1 = [] then 0 else (digitsToNat g1 : ℤ)

/-- The endpoint's end value: fileSize − 1 when the second group is empty. -/
def rangeEndOf (N : ℕ) (g2 : List Char) : ℤ :=
  if g2 = [] then (N : ℤ) - 1 else (digitsToNat g2 : ℤ)

/-- C8, counterexample: on a 10000-byte file the header bytes=- (both
groups empty) is answered with 206 and Content-Range bytes 0-9999/10000,
not with the claimed 200 full-body response. -/
theorem handleMediaRange_emptyRange_cex :
    handleMediaRange 10000 (some "bytes=-") =
      RangeResult.partialBody 0 9999 "bytes 0-9999/10000" 10000 ∧
    handleMediaRange 10000 (some "bytes=-") ≠ RangeResult.fullBody 10000 := by
  constructor <;> decide

/-- C8 (amended): for bytes=a-b with 0 ≤ a ≤ b < N the endpoint answers
206 with Content-Range bytes a-b/N and Content-Length b−a+1; the header
bytes=- (both groups empty) also answers 206, with the full range
0..N−1 (not 200); a header in which the pattern does not occur, or whose
bounds fail a ≤ b < N, is answered 416; only an absent (or empty) Range
header streams the whole file with 200. -/
theorem handleMediaRange_spec (N : ℕ) (g1 g2 : List Char)
    (h1 : ∀ d ∈ g1, d.isDigit = true) (h2 : ∀ d ∈ g2, d.isDigit = true) :
    (rangeStartOf g1 ≤ rangeEndOf N g2 → rangeEndOf N g2 < (N : ℤ) →
      handleMediaRange N (some (rangeHeaderOf g1 g2)) =
        .partialBody (rangeStartOf g1) (rangeEndOf N g2)
          (contentRangeHeader (rangeStartOf g1) (rangeEndOf N g2) N)
          (rangeEndOf N g2 - rangeStartOf g1 + 1)) ∧
    ((rangeEndOf N g2 < rangeStartOf g1 ∨ (N : ℤ) ≤ rangeEndOf N g2) →
      handleMediaRange N (some (rangeHeaderOf g1 g2)) = .notSatisfiable) ∧
    (∀ s : String, execBytesRange s.toList = none → s ≠ "" →
      handleMediaRange N (some s) = .notSatisfiable) ∧
    handleMediaRange N none = .fullBody N := by
  have hne : rangeHeaderOf g1 g2 ≠ "" := by
    intro hc
    have hd : "bytes=".toList ++ (g1 ++ '-' :: g2) = [] := congrArg String.data hc
    rcases List.append_eq_nil.mp hd with ⟨h6, -⟩
    exact absurd h6 (by decide)
  have hexec : execBytesRange (rangeHeaderOf g1 g2).toList = some (g1, g2) := by
    show execBytesRange ("bytes=".toList ++ g1 ++ '-' :: g2) = some (g1, g2)
    exact execBytesRange_header g1 g2 h1 h2
  refine ⟨?_, ?_, ?_, rfl⟩
  · intro hab hbn
    have hcond : ¬(rangeStartOf g1 > rangeEndOf N g2 ∨ rangeEndOf N g2 ≥ (N : ℤ)) := by
      push_neg
      exact ⟨hab, hbn⟩
    show (if rangeHeaderOf g1 g2 = "" then RangeResult.fullBody N
      else match execBytesRange (rangeHeaderOf g1 g2).toList with
        | none => RangeResult.notSatisfiable
        | some g =>
          let start : ℤ := if g.1 = [] then 0 else (digitsToNat g.1 : ℤ)
          let e : ℤ := if g.2 = [] then (N : ℤ) - 1 else (digitsToNat g.2 : ℤ)
          if start > e ∨ e ≥ (N : ℤ) then RangeResult.notSatisfiable
          else RangeResult.partialBody start e (contentRangeHeader start e N)
            (e - start + 1)) = _
    rw [if_neg hne, hexec]
    exact if_neg hcond
  · intro hcond
    show (if rangeHeaderOf g1 g2 = "" then RangeResult.fullBody N
      else match execBytesRange (rangeHeaderOf g1 g2).toList with
        | none => RangeResult.notSatisfiable
        | some g =>
          let start : ℤ := if g.1 = [] then 0 else (digitsToNat g.1 : ℤ)
          let e : ℤ := if g.2 = [] then (N : ℤ) - 1 else (digitsToNat g.2 : ℤ)
          if start > e ∨ e ≥ (N : ℤ) then RangeResult.notSatisfiable
          else RangeResult.partialBody start e (contentRangeHeader start e N)
            (e - start + 1)) = _
    rw [if_neg hne, hexec]
    exact if_pos (by rcases hcond with h | h; exact Or.inl h; exact Or.inr h)
  · intro s hsexec hsne
    show (if s = "" then RangeResult.fullBody N
      else match execBytesRange s.toList with
        | none => RangeResult.notSatisfiable
        | some g =>
          let start : ℤ := if g.1 = [] then 0 else (digitsToNat g.1 : ℤ)
          let e : ℤ := if g.2 = [] then (N : ℤ) - 1 else (digitsToNat g.2 : ℤ)
          if start > e ∨ e ≥ (N : ℤ) then RangeResult.notSatisfiable
          else RangeResult.partialBody start e (contentRangeHeader start e N)
            (e - start + 1)) = _
    rw [if_neg hsne, hsexec]

/-- C8, witness instance of the amended theorem: bytes=0-499 on a
10000-byte file. -/
theorem handleMediaRange_spec_witness :
    handleMediaRange 10000 (some (rangeHeaderOf ['0'] ['4', '9', '9'])) =
      .partialBody (rangeStartOf ['0']) (rangeEndOf 10000 ['4', '9', '9'])
        (contentRangeHeader (rangeStartOf ['0']) (rangeEndOf 10000 ['4', '9', '9']) 10000)
        (rangeEndOf 10000 ['4', '9', '9'] - rangeStartOf ['0'] + 1) :=
  (handleMediaRange_spec 10000 ['0'] ['4', '9', '9'] (by decide) (by decide)).1
    (by decide) (by decide)

theorem clampPlaybackRate_bounds (v : JsNum) :
    1/2 ≤ clampPlaybackRate v ∧ clampPlaybackRate v ≤ 2 := by
  cases v with
  | nonfinite => norm_num [clampPlaybackRate]
  | finite q =>
    refine ⟨le_max_left _ _, max_le (by norm_num) (min_le_left _ _)⟩

theorem areAll_fst_playbackState (r : RoomState) (now : ℚ) :
    ((areAllMembersStartupReady r now).1).playbackState = r.playbackState := by
  unfold areAllMembersStartupReady
  split <;> rfl

theorem playbackControlFinish_bounds (room : RoomState) (sid : String)
    (p : PlaybackControlPayloadIn) (evs : List ServerEvent) (now : ℚ)
    (h1 : 1/2 ≤ room.playbackState.playbackRate)
    (h2 : room.playbackState.playbackRate ≤ 2)
    (h3 : 0 ≤ room.playbackState.position) :
    1/2 ≤ ((playbackControlFinish room sid p evs now).1).playbackState.playbackRate ∧
    ((playbackControlFinish room sid p evs now).1).playbackState.playbackRate ≤ 2 ∧
    0 ≤ ((playbackControlFinish room sid p evs now).1).playbackState.position := by
  unfold playbackControlFinish
  split
  · exact ⟨h1, h2, h3⟩
  · exact ⟨(clampPlaybackRate_bounds _).1, (clampPlaybackRate_bounds _).2, le_max_left 0 _⟩

/-- C6: markPlayback clamps the rate into [0.5, 2] (non-finite rates
normalized to 1) and the position to ≥ 0, stamps updatedAt = now, records
updatedBy and the reason, and sets lastActiveAt = now; consequently any
playback:control command keeps rate ∈ [0.5, 2] and position ≥ 0. -/
theorem markPlayback_clamps :
    (∀ (room : RoomState) (patch : PlaybackPatch) (reason : PlaybackReason) (now : ℚ),
      1/2 ≤ (markPlayback room patch reason now).playbackState.playbackRate ∧
      (markPlayback room patch reason now).playbackState.playbackRate ≤ 2 ∧
      (patch.playbackRate = JsNum.nonfinite →
        (markPlayback room patch reason now).playbackState.playbackRate = 1) ∧
      0 ≤ (markPlayback room patch reason now).playbackState.position ∧
      (markPlayback room patch reason now).playbackState.updatedAt = now ∧
      (markPlayback room patch reason now).playbackState.updatedBy = patch.updatedBy ∧
      (markPlayback room patch reason now).playbackState.reason = reason ∧
      (markPlayback room patch reason now).lastActiveAt = now) ∧
    (∀ (room : RoomState) (sid : String) (p : PlaybackControlPayloadIn) (now : ℚ),
      1/2 ≤ room.playbackState.playbackRate → room.playbackState.playbackRate ≤ 2 →
      0 ≤ room.playbackState.position →
      1/2 ≤ ((handlePlaybackControl room sid p now).1).playbackState.playbackRate ∧
      ((handlePlaybackControl room sid p now).1).playbackState.playbackRate ≤ 2 ∧
      0 ≤ ((handlePlaybackControl room sid p now).1).playbackState.position) := by
  constructor
  · intro room patch reason now
    refine ⟨(clampPlaybackRate_bounds _).1, (clampPlaybackRate_bounds _).2,
      ?_, le_max_left 0 _, rfl, rfl, rfl, rfl⟩
    intro hnf
    show clampPlaybackRate patch.playbackRate = 1
    rw [hnf]
    rfl
  · intro room sid p now h1 h2 h3
    have hps := areAll_fst_playbackState room now
    unfold handlePlaybackControl
    dsimp only
    split
    · exact ⟨h1, h2, h3⟩
    · split
      · split
        · exact ⟨(clampPlaybackRate_bounds _).1, (clampPlaybackRate_bounds _).2,
            le_max_left 0 _⟩
        · refine playbackControlFinish_bounds _ sid p _ now ?_ ?_ ?_
          · show 1/2 ≤ ((areAllMembersStartupReady room now).1).playbackState.playbackRate
            rw [hps]; exact h1
          · show ((areAllMembersStartupReady room now).1).playbackState.playbackRate ≤ 2
            rw [hps]; exact h2
          · show 0 ≤ ((areAllMembersStartupReady room now).1).playbackState.position
            rw [hps]; exact h3
      · exact playbackControlFinish_bounds _ sid p _ now h1 h2 h3

/-- C6, witness: a concrete playback:control application of the clamping
theorem. -/
theorem markPlayback_clamps_witness :
    1/2 ≤ ((handlePlaybackControl (createRoom "ROOM1" "A" "r" none 0) "A"
        { position := 3, paused := false, playbackRate := .finite 5, reason := .user }
        7).1).playbackState.playbackRate ∧
    ((handlePlaybackControl (createRoom "ROOM1" "A" "r" none 0) "A"
        { position := 3, paused := false, playbackRate := .finite 5, reason := .user }
        7).1).playbackState.playbackRate ≤ 2 ∧
    0 ≤ ((handlePlaybackControl (createRoom "ROOM1" "A" "r" none 0) "A"
        { position := 3, paused := false, playbackRate := .finite 5, reason := .user }
        7).1).playbackState.position :=
  markPlayback_clamps.2 (createRoom "ROOM1" "A" "r" none 0) "A"
    { position := 3, paused := false, playbackRate := .finite 5, reason := .user } 7
    (by norm_num [createRoom, createInitialPlaybackState])
    (by norm_num [createRoom, createInitialPlaybackState])
    (by norm_num [createRoom, createInitialPlaybackState])

/-- C7: in soft sync mode with a known positive duration, the buffering
grace period is 0 ms when at most 5 s of media remain, 350 ms when more
than 5 but at most 15 s remain, and 900 ms when more than 15 s remain;
in the latter case a room whose buffering members all report
readyState ≥ 3 and have been buffering for less than 900 ms is not
paused (shouldPauseForBuffering is false). -/
theorem softBufferGrace_spec (room : RoomState) (media : StoredMedia) (d : ℚ) (now : ℚ)
    (hmode : room.syncMode = .soft)
    (hmedia : room.media = some media)
    (hdur : media.duration = some d)
    (hdpos : 0 < d) :
    (max 0 (d - getCurrentPlaybackPosition room now) ≤ 5 →
      getSoftBufferGraceMs room now = 0) ∧
    (5 < max 0 (d - getCurrentPlaybackPosition room now) →
      max 0 (d - getCurrentPlaybackPosition room now) ≤ 15 →
      getSoftBufferGraceMs room now = 350) ∧
    (15 < max 0 (d - getCurrentPlaybackPosition room now) →
      getSoftBufferGraceMs room now = 900 ∧
      ((∀ q ∈ room.members, q.2.buffering = true →
          3 ≤ q.2.readyState ∧
          ∀ t, q.2.bufferingStartedAt = some t → now - t < 900) →
        shouldPauseForBuffering room now = false)) := by
  have hgrace : getSoftBufferGraceMs room now =
      (if max 0 (d - getCurrentPlaybackPosition room now) ≤ 5 then 0
       else if max 0 (d - getCurrentPlaybackPosition room now) ≤ 15 then 350 else 900) := by
    simp only [getSoftBufferGraceMs, hmedia, hdur]
    rw [if_neg hdpos.ne']
  refine ⟨fun h5 => by rw [hgrace, if_pos h5],
    fun h5 h15 => by rw [hgrace, if_neg (not_le.mpr h5), if_pos h15],
    fun h15 => ?_⟩
  have h900 : getSoftBufferGraceMs room now = 900 := by
    rw [hgrace, if_neg (not_le.mpr (lt_trans (by norm_num) h15)),
      if_neg (not_le.mpr h15)]
  refine ⟨h900, fun hmem => ?_⟩
  unfold shouldPauseForBuffering
  dsimp only
  by_cases hemp :
      ((room.members.map (fun q => q.2)).filter (fun m => m.buffering)).isEmpty = true
  · rw [if_pos hemp]
  · rw [if_neg hemp, if_neg (by rw [hmode]; intro hc; cases hc)]
    rw [List.any_eq_false]
    intro m hm
    have hmem2 := List.mem_filter.mp hm
    obtain ⟨q, hq, hq2⟩ := List.mem_map.mp hmem2.1
    have hbuf : m.buffering = true := hmem2.2
    have hprops := hmem q hq (by rw [hq2]; exact hbuf)
    rw [hq2] at hprops
    have hrs : ¬ (m.readyState < 3) := not_lt.mpr hprops.1
    simp only [if_neg hrs]
    match hstart : m.bufferingStartedAt with
    | none => simp
    | some t =>
      have ht := hprops.2 t hstart
      rw [h900]
      show ¬ (decide ((900 : ℚ) ≤ now - t) = true)
      exact fun hc => absurd (of_decide_eq_true hc) (not_le.mpr ht)

/-- Demo media for the soft-grace witness: 100 seconds long. -/
def softGraceDemoMedia : StoredMedia :=
  { id := "m", name := "movie.mp4", size := 1000, mimeType := "video/mp4"
    duration := some 100, sha256 := "s", selectedAt := 0, filePath := none }

/-- Demo member for the soft-grace witness: buffering with readyState 3
since time 0. -/
def softGraceDemoMember : TrackedRoomMember :=
  { createTrackedMember "B" "b" false 0 with
    buffering := true, readyState := 3, bufferingStartedAt := some 0 }

/-- Demo room for the soft-grace witness: soft mode, paused at position 0,
so more than 15 seconds remain. -/
def softGraceDemoRoom : RoomState :=
  { createRoom "RROOM" "A" "r" none 0 with
    media := some softGraceDemoMedia
    members := [("B", softGraceDemoMember)] }

/-- C7, witness: at 100 ms since buffering started (less than the 900 ms
grace), the demo room is not paused. -/
theorem softBufferGrace_spec_witness :
    getSoftBufferGraceMs softGraceDemoRoom 100 = 900 ∧
    shouldPauseForBuffering softGraceDemoRoom 100 = false := by
  have h := (softBufferGrace_spec softGraceDemoRoom softGraceDemoMedia 100 100
      rfl rfl rfl (by norm_num)).2.2
      (by norm_num [softGraceDemoRoom, softGraceDemoMedia, createRoom,
        createInitialPlaybackState, getCurrentPlaybackPosition, deriveCurrentPosition])
  refine ⟨h.1, h.2 ?_⟩
  intro q hq hbuf
  have hq2 : q ∈ [("B", softGraceDemoMember)] := hq
  rw [List.mem_singleton] at hq2
  subst hq2
  refine ⟨by norm_num [softGraceDemoMember, createTrackedMember], ?_⟩
  intro t ht
  have ht2 : some (0 : ℚ) = some t := ht
  injection ht2 with ht3
  rw [← ht3]
  norm_num

/-- C10: a successful host media upload stores as sha256 exactly the
fresh randomUUID draw, which is independent of the uploaded file (two
uploads with different files but the same draws store the same sha256),
and every member other than the uploading host gets mediaMatchState
missing. -/
theorem mediaUpload_freshSha (room : RoomState) (sid : String)
    (file file2 : UploadedFileIn) (freshMediaId freshSha : String) (now : ℚ)
    (hmem : mapHas room.members sid = true)
    (hhost : room.hostSocketId = sid) :
    ((handleMediaUpload room sid file freshMediaId freshSha now).1.media.map
      (fun m => m.sha256)) = some freshSha ∧
    ((handleMediaUpload room sid file2 freshMediaId freshSha now).1.media.map
      (fun m => m.sha256)) =
      ((handleMediaUpload room sid file freshMediaId freshSha now).1.media.map
        (fun m => m.sha256)) ∧
    (∀ p ∈ (handleMediaUpload room sid file freshMediaId freshSha now).1.members,
      p.2.socketId ≠ sid → p.2.mediaMatchState = MediaMatchState.missing) := by
  have hguard : (!(mapHas room.members sid) || room.hostSocketId != sid) = false := by
    simp [hmem, hhost]
  unfold handleMediaUpload
  rw [hguard]
  simp only [Bool.false_eq_true, if_false]
  refine ⟨rfl, rfl, ?_⟩
  intro p hp hpx
  obtain ⟨q, hq, hq2⟩ := List.mem_map.mp hp
  rw [← hq2] at hpx ⊢
  have hbeq : ((resetMemberPlaybackState q.2).socketId == sid) = false :=
    beq_eq_false_iff_ne.mpr hpx
  show (if ((resetMemberPlaybackState q.2).socketId == sid) = true
    then MediaMatchState.matched else MediaMatchState.missing) = MediaMatchState.missing
  rw [hbeq]
  simp

/-- Demo room for the upload witness: host A plus guest B. -/
def uploadDemoRoom : RoomState :=
  { createRoom "RROOM" "A" "r" none 0 with
    members := [("A", createTrackedMember "A" "a" true 0),
                ("B", createTrackedMember "B" "b" false 0)] }

/-- C10, witness: a concrete upload of two different files with the same
UUID draws. -/
theorem mediaUpload_freshSha_witness :
    ((handleMediaUpload uploadDemoRoom "A"
        { name := "a.mp4", path := "p", size := 100, mimeType := "video/mp4",
          duration := some 10 } "id1" "sha1" 5).1.media.map (fun m => m.sha256)) =
      some "sha1" ∧
    ((handleMediaUpload uploadDemoRoom "A"
        { name := "b.mkv", path := "q", size := 999, mimeType := "video/x-matroska",
          duration := none } "id1" "sha1" 5).1.media.map (fun m => m.sha256)) =
      ((handleMediaUpload uploadDemoRoom "A"
        { name := "a.mp4", path := "p", size := 100, mimeType := "video/mp4",
          duration := some 10 } "id1" "sha1" 5).1.media.map (fun m => m.sha256)) ∧
    (∀ p ∈ (handleMediaUpload uploadDemoRoom "A"
        { name := "a.mp4", path := "p", size := 100, mimeType := "video/mp4",
          duration := some 10 } "id1" "sha1" 5).1.members,
      p.2.socketId ≠ "A" → p.2.mediaMatchState = MediaMatchState.missing) :=
  mediaUpload_freshSha uploadDemoRoom "A"
    { name := "a.mp4", path := "p", size := 100, mimeType := "video/mp4",
      duration := some 10 }
    { name := "b.mkv", path := "q", size := 999, mimeType := "video/x-matroska",
      duration := none } "id1" "sha1" 5 (by decide) rfl

theorem sync_all_startupReady (room : RoomState) (now : ℚ) :
    ((syncMemberStartupReadiness room now).members.all (fun p => p.2.startupReady)) =
      (room.members.all (fun p => isMemberStartupReady room p.2 now)) := by
  unfold syncMemberStartupReadiness
  rw [List.all_map]
  rfl

theorem areAll_snd_eq (room : RoomState) (now : ℚ)
    (hmedia : room.media.isNone = false) (hne : room.members.isEmpty = false) :
    (areAllMembersStartupReady room now).2 =
      room.members.all (fun p => isMemberStartupReady room p.2 now) := by
  unfold areAllMembersStartupReady
  rw [hmedia, hne]
  simp only [Bool.or_self, Bool.false_eq_true, if_false]
  exact sync_all_startupReady room now

/-- C2: an unpause request through playback:control while the startup gate
is active and not every member satisfies the startup-ready predicate does
not unpause: it sets pendingStartRequested, leaves the room force-paused
with reason startup_gate, and broadcasts that forced-paused envelope to
the room. -/
theorem startupGate_forcedPause (room : RoomState) (sid : String)
    (p : PlaybackControlPayloadIn) (now : ℚ)
    (hmem : mapHas room.members sid = true)
    (hmedia : room.media.isNone = false)
    (hpaused : p.paused = false)
    (hgate : room.startupGateActive = true)
    (hnotready : room.members.all (fun q => isMemberStartupReady room q.2 now) = false) :
    ((handlePlaybackControl room sid p now).1).pendingStartRequested = true ∧
    ((handlePlaybackControl room sid p now).1).playbackState.paused = true ∧
    ((handlePlaybackControl room sid p now).1).playbackState.reason =
      PlaybackReason.startup_gate ∧
    ServerEvent.playbackToRoom
      (toPlaybackEnvelope (handlePlaybackControl room sid p now).1 now) ∈
        (handlePlaybackControl room sid p now).2 ∧
    (toPlaybackEnvelope (handlePlaybackControl room sid p now).1 now).playbackState.paused =
      true ∧
    (toPlaybackEnvelope (handlePlaybackControl room sid p now).1 now).playbackState.reason =
      PlaybackReason.startup_gate := by
  have hne : room.members.isEmpty = false := by
    cases hm : room.members with
    | nil => rw [hm] at hmem; simp [mapHas] at hmem
    | cons a l => simp [List.isEmpty]
  have hsnd : (areAllMembersStartupReady room now).2 = false := by
    rw [areAll_snd_eq room now hmedia hne, hnotready]
  have hguard : (!(mapHas room.members sid) || room.media.isNone) = false := by
    rw [hmem, hmedia]; rfl
  have hcond : (!p.paused && room.startupGateActive) = true := by
    rw [hpaused, hgate]; rfl
  unfold handlePlaybackControl
  rw [hguard]
  simp only [Bool.false_eq_true, if_false]
  rw [hcond]
  simp only [if_true]
  rw [hsnd]
  simp only [Bool.not_false, if_true]
  refine ⟨rfl, rfl, rfl, ?_, rfl, rfl⟩
  exact List.mem_cons_of_mem _ (List.mem_singleton.mpr rfl)

/-- Demo room for the startup-gate witness: gate armed, host A ready via
canPlayThrough, guest B not ready (no matching media). -/
def gateDemoRoom : RoomState :=
  { createRoom "RROOM" "A" "r" none 0 with
    media := some softGraceDemoMedia
    startupGateActive := true
    members := [("A", { createTrackedMember "A" "a" true 0 with
                  canPlayThrough := true, mediaMatchState := .matched }),
                ("B", createTrackedMember "B" "b" false 0)] }

/-- C2, witness: a concrete blocked unpause through the startup gate. -/
theorem startupGate_forcedPause_witness :
    ((handlePlaybackControl gateDemoRoom "A"
        { position := 0, paused := false, playbackRate := .finite 1, reason := .user }
        9).1).pendingStartRequested = true ∧
    ((handlePlaybackControl gateDemoRoom "A"
        { position := 0, paused := false, playbackRate := .finite 1, reason := .user }
        9).1).playbackState.paused = true ∧
    ((handlePlaybackControl gateDemoRoom "A"
        { position := 0, paused := false, playbackRate := .finite 1, reason := .user }
        9).1).playbackState.reason = PlaybackReason.startup_gate ∧
    ServerEvent.playbackToRoom
      (toPlaybackEnvelope (handlePlaybackControl gateDemoRoom "A"
        { position := 0, paused := false, playbackRate := .finite 1, reason := .user }
        9).1 9) ∈
        (handlePlaybackControl gateDemoRoom "A"
          { position := 0, paused := false, playbackRate := .finite 1, reason := .user }
          9).2 ∧
    (toPlaybackEnvelope (handlePlaybackControl gateDemoRoom "A"
        { position := 0, paused := false, playbackRate := .finite 1, reason := .user }
        9).1 9).playbackState.paused = true ∧
    (toPlaybackEnvelope (handlePlaybackControl gateDemoRoom "A"
        { position := 0, paused := false, playbackRate := .finite 1, reason := .user }
        9).1 9).playbackState.reason = PlaybackReason.startup_gate :=
  startupGate_forcedPause gateDemoRoom "A"
    { position := 0, paused := false, playbackRate := .finite 1, reason := .user } 9
    (by decide) (by decide) rfl rfl (by decide)

theorem mapSet_self_mem {α : Type} (m : List (String × α)) (k : String) (v : α) :
    (k, v) ∈ mapSet m k v := by
  unfold mapSet
  split
  · rename_i h
    obtain ⟨q, hq, hqk⟩ := List.any_eq_true.mp h
    refine List.mem_map.mpr ⟨q, hq, ?_⟩
    simp only [hqk, if_true]
  · exact List.mem_append_right _ (List.mem_singleton.mpr rfl)

theorem getBufferingUsers_ne_nil {r : RoomState}
    (h : ∃ q ∈ r.members, q.2.buffering = true) :
    (getBufferingUsers r).isEmpty = false := by
  obtain ⟨q, hq, hb⟩ := h
  have hmem : q.2.socketId ∈ getBufferingUsers r :=
    List.mem_map.mpr ⟨q.2,
      List.mem_filter.mpr ⟨List.mem_map.mpr ⟨q, hq, rfl⟩, hb⟩, rfl⟩
  cases hl : getBufferingUsers r with
  | nil => rw [hl] at hmem; cases hmem
  | cons a l => rfl

theorem shouldPause_strict {r : RoomState} (now : ℚ)
    (hmode : r.syncMode = .strict)
    (h : ∃ q ∈ r.members, q.2.buffering = true) :
    shouldPauseForBuffering r now = true := by
  obtain ⟨q, hq, hb⟩ := h
  have hmemf : q.2 ∈ (r.members.map (fun p => p.2)).filter (fun m => m.buffering) :=
    List.mem_filter.mpr ⟨List.mem_map.mpr ⟨q, hq, rfl⟩, hb⟩
  have hne : ((r.members.map (fun p => p.2)).filter (fun m => m.buffering)).isEmpty
      = false := by
    cases hl : (r.members.map (fun p => p.2)).filter (fun m => m.buffering) with
    | nil => rw [hl] at hmemf; cases hmemf
    | cons a l => rfl
  unfold shouldPauseForBuffering
  dsimp only
  rw [hne]
  simp only [Bool.false_eq_true, if_false]
  rw [if_pos hmode]

theorem applyBuffering_paused {r : RoomState} {now : ℚ}
    (h : shouldPauseForBuffering r now = true)
    (hb : ∃ q ∈ r.members, q.2.buffering = true) :
    ((applyBuffering r now).1).playbackState.paused = true := by
  have hgb := getBufferingUsers_ne_nil hb
  unfold applyBuffering
  dsimp only
  by_cases hp : r.playbackState.paused = true
  · have hc1 : (shouldPauseForBuffering r now && !r.playbackState.paused) = false := by
      rw [h, hp]; rfl
    rw [hc1]
    simp only [Bool.false_eq_true, if_false]
    have hc2 : (r.resumeAfterBuffer && (getBufferingUsers r).isEmpty &&
        areAllMembersReadyToResumePlayback r now) = false := by
      rw [hgb]; simp
    rw [hc2]
    simp only [Bool.false_eq_true, if_false]
    exact hp
  · have hp2 : r.playbackState.paused = false := by
      cases hx : r.playbackState.paused
      · rfl
      · exact absurd hx hp
    have hc1 : (shouldPauseForBuffering r now && !r.playbackState.paused) = true := by
      rw [h, hp2]; rfl
    rw [hc1]
    simp only [if_true]
    rfl

theorem applyBuffering_pause_fields {r : RoomState} {now : ℚ}
    (h : shouldPauseForBuffering r now = true)
    (hp : r.playbackState.paused = false) :
    ((applyBuffering r now).1).playbackState.position =
      max 0 (deriveCurrentPosition r.playbackState now) ∧
    ((applyBuffering r now).1).playbackState.reason = PlaybackReason.buffer_lock ∧
    ((applyBuffering r now).1).resumeAfterBuffer = true := by
  unfold applyBuffering
  dsimp only
  have hc1 : (shouldPauseForBuffering r now && !r.playbackState.paused) = true := by
    rw [h, hp]; rfl
  rw [hc1]
  simp only [if_true]
  refine ⟨?_, ?_, ?_⟩ <;> first | rfl | trivial

theorem areAll_fst_cases (r : RoomState) (now : ℚ) :
    (areAllMembersStartupReady r now).1 = r ∨
    (areAllMembersStartupReady r now).1 = syncMemberStartupReadiness r now := by
  unfold areAllMembersStartupReady
  split
  · exact Or.inl rfl
  · exact Or.inr rfl

theorem syncStartupGate_of_unpaused {r : RoomState} {now : ℚ}
    (hp : r.playbackState.paused = false) :
    (syncStartupGate r now).1 = r ∨
    (syncStartupGate r now).1 = syncMemberStartupReadiness r now := by
  unfold syncStartupGate
  split
  · exact Or.inl rfl
  · dsimp only
    split
    · exact areAll_fst_cases r now
    · split
      · exact areAll_fst_cases r now
      · rename_i hcond
        exfalso
        have hps := areAll_fst_playbackState r now
        have hb : (!((areAllMembersStartupReady r now).1).playbackState.paused) = false := by
          cases hx : (!((areAllMembersStartupReady r now).1).pendingStartRequested ||
              !((areAllMembersStartupReady r now).1).playbackState.paused) with
          | false => exact (Bool.or_eq_false_iff.mp hx).2
          | true => exact absurd hx hcond
        rw [hps, hp] at hb
        exact absurd hb (by decide)

theorem syncStartupGate_members (r : RoomState) (now : ℚ) :
    ((syncStartupGate r now).1).members = r.members ∨
    ((syncStartupGate r now).1).members = (syncMemberStartupReadiness r now).members := by
  unfold syncStartupGate
  split
  · exact Or.inl rfl
  · dsimp only
    rcases areAll_fst_cases r now with h | h
    · split
      · rw [h]; exact Or.inl rfl
      · split
        · rw [h]; exact Or.inl rfl
        · left
          show ((areAllMembersStartupReady r now).1).members = r.members
          rw [h]
    · split
      · rw [h]; exact Or.inr rfl
      · split
        · rw [h]; exact Or.inr rfl
        · right
          show ((areAllMembersStartupReady r now).1).members =
            (syncMemberStartupReadiness r now).members
          rw [h]

theorem syncStartupGate_syncMode (r : RoomState) (now : ℚ) :
    ((syncStartupGate r now).1).syncMode = r.syncMode := by
  unfold syncStartupGate
  split
  · rfl
  · dsimp only
    rcases areAll_fst_cases r now with h | h <;>
      (split
       · rw [h] <;> rfl
       · split
         · rw [h] <;> rfl
         · show ((areAllMembersStartupReady r now).1).syncMode = r.syncMode
           rw [h] <;> rfl)

theorem sync_buffering_exists {r : RoomState} {now : ℚ}
    (h : ∃ q ∈ r.members, q.2.buffering = true) :
    ∃ q ∈ (syncMemberStartupReadiness r now).members, q.2.buffering = true := by
  obtain ⟨q, hq, hb⟩ := h
  exact ⟨(q.1, { q.2 with startupReady := isMemberStartupReady r q.2 now }),
    List.mem_map.mpr ⟨q, hq, rfl⟩, hb⟩

theorem clientBuffering_core (r : RoomState) (now : ℚ)
    (hmode : r.syncMode = .strict)
    (hb1 : ∃ q ∈ r.members, q.2.buffering = true) :
    ((applyBuffering ((syncStartupGate (syncMemberStartupReadiness r now) now)).1
        now).1).playbackState.paused = true ∧
    (r.playbackState.paused = false →
      ((applyBuffering ((syncStartupGate (syncMemberStartupReadiness r now) now)).1
          now).1).playbackState.position =
        max 0 (deriveCurrentPosition r.playbackState now) ∧
      ((applyBuffering ((syncStartupGate (syncMemberStartupReadiness r now) now)).1
          now).1).playbackState.reason = PlaybackReason.buffer_lock ∧
      ((applyBuffering ((syncStartupGate (syncMemberStartupReadiness r now) now)).1
          now).1).resumeAfterBuffer = true) := by
  have hb2 : ∃ q ∈ (syncMemberStartupReadiness r now).members, q.2.buffering = true :=
    sync_buffering_exists hb1
  have hb3 : ∃ q ∈ ((syncStartupGate (syncMemberStartupReadiness r now) now).1).members,
      q.2.buffering = true := by
    rcases syncStartupGate_members (syncMemberStartupReadiness r now) now with h | h
    · rw [h]; exact hb2
    · rw [h]; exact sync_buffering_exists hb2
  have hmode3 : ((syncStartupGate (syncMemberStartupReadiness r now) now).1).syncMode =
      .strict := by
    rw [syncStartupGate_syncMode]
    exact hmode
  have hsp := shouldPause_strict now hmode3 hb3
  refine ⟨applyBuffering_paused hsp hb3, fun hp => ?_⟩
  have hp2 : (syncMemberStartupReadiness r now).playbackState.paused = false := hp
  have hps3 : ((syncStartupGate (syncMemberStartupReadiness r now) now).1).playbackState =
      r.playbackState := by
    rcases syncStartupGate_of_unpaused hp2 with h | h
    · rw [h]; rfl
    · rw [h]; rfl
  have hpaused3 : ((syncStartupGate
      (syncMemberStartupReadiness r now) now).1).playbackState.paused = false := by
    rw [hps3]; exact hp
  obtain ⟨hpos, hreason, hresume⟩ := applyBuffering_pause_fields hsp hpaused3
  refine ⟨?_, hreason, hresume⟩
  rw [hpos, hps3]

/-- C1: in a strict-mode room with media, processing a client:buffering
command that reports buffering = true from any member leaves the room
paused; if the room was unpaused before the command, the pause is applied
at the derived current position (for a well-formed state with position
and rate ≥ 0) with reason buffer_lock, and resumeAfterBuffer is set. -/
theorem strictBuffering_forcesPause (room : RoomState) (sid : String)
    (p : BufferingPayloadIn) (now : ℚ) (member : TrackedRoomMember)
    (hmode : room.syncMode = .strict)
    (hmedia : room.media.isSome = true)
    (hmem : mapGet room.members sid = some member)
    (hbuf : p.buffering = true) :
    ((handleClientBuffering room sid p now).1).playbackState.paused = true ∧
    (room.playbackState.paused = false →
      0 ≤ room.playbackState.position → 0 ≤ room.playbackState.playbackRate →
      ((handleClientBuffering room sid p now).1).playbackState.position =
        deriveCurrentPosition room.playbackState now ∧
      ((handleClientBuffering room sid p now).1).playbackState.reason =
        PlaybackReason.buffer_lock ∧
      ((handleClientBuffering room sid p now).1).resumeAfterBuffer = true) := by
  have hstep : (handleClientBuffering room sid p now).1 =
      (applyBuffering ((syncStartupGate (syncMemberStartupReadiness
        (bufferingUpdatedRoom room sid member p now) now) now)).1 now).1 := by
    unfold handleClientBuffering
    rw [hmem]
  have hb1 : ∃ q ∈ (bufferingUpdatedRoom room sid member p now).members,
      q.2.buffering = true := by
    refine ⟨(sid, bufferingUpdatedMember member p now), mapSet_self_mem _ _ _, ?_⟩
    show p.buffering = true
    exact hbuf
  have hmode1 : (bufferingUpdatedRoom room sid member p now).syncMode = .strict := hmode
  have core := clientBuffering_core (bufferingUpdatedRoom room sid member p now) now
    hmode1 hb1
  constructor
  · rw [hstep]; exact core.1
  · intro hp hpos hrate
    rw [hstep]
    obtain ⟨hposE, hreasonE, hresumeE⟩ := core.2 hp
    refine ⟨?_, hreasonE, hresumeE⟩
    rw [hposE]
    show max 0 (deriveCurrentPosition room.playbackState now) =
      deriveCurrentPosition room.playbackState now
    apply max_eq_right
    unfold deriveCurrentPosition
    rw [hp]
    simp only [Bool.false_eq_true, if_false]
    exact add_nonneg hpos (mul_nonneg (le_max_left 0 _) hrate)

/-- Demo playback state for the strict-buffering witness: playing at
position 4 since time 0. -/
def strictDemoPlayback : PlaybackState :=
  { position := 4, paused := false, playbackRate := 1, updatedAt := 0
    updatedBy := "A", reason := .user }

/-- Demo room for the strict-buffering witness: strict mode, playing,
host A and guest B. -/
def strictDemoRoom : RoomState :=
  { createRoom "RROOM" "A" "r" none 0 with
    syncMode := .strict
    media := some softGraceDemoMedia
    playbackState := strictDemoPlayback
    members := [("A", createTrackedMember "A" "a" true 0),
                ("B", createTrackedMember "B" "b" false 0)] }

/-- Demo client:buffering payload for the strict-buffering witness. -/
def strictDemoPayload : BufferingPayloadIn :=
  { buffering := true, bufferAheadSeconds := some 1, readyState := some 2,
    canPlayThrough := false }

/-- C1, witness: guest B reports buffering in the playing strict demo room
at time 1000; the room pauses at the derived position with buffer_lock. -/
theorem strictBuffering_forcesPause_witness :
    ((handleClientBuffering strictDemoRoom "B" strictDemoPayload 1000).1).playbackState.paused
      = true ∧
    ((handleClientBuffering strictDemoRoom "B" strictDemoPayload 1000).1).playbackState.position
      = deriveCurrentPosition strictDemoRoom.playbackState 1000 ∧
    ((handleClientBuffering strictDemoRoom "B" strictDemoPayload 1000).1).playbackState.reason
      = PlaybackReason.buffer_lock ∧
    ((handleClientBuffering strictDemoRoom "B" strictDemoPayload 1000).1).resumeAfterBuffer
      = true := by
  have h := strictBuffering_forcesPause strictDemoRoom "B" strictDemoPayload 1000
    (createTrackedMember "B" "b" false 0) rfl rfl rfl rfl
  exact ⟨h.1, h.2 rfl (by show (0:ℚ) ≤ 4; norm_num) (by show (0:ℚ) ≤ 1; norm_num)⟩

/-- C5: given the room exists and the password check passed, room:join
answers the room_full error exactly when the connection is not already a
member and members.size ≥ maxMembers; on that failure the room state is
unchanged (in particular no member record is created). -/
theorem joinRoomFull_spec (roomId : String) (room : RoomState) (sid : String)
    (payload : JoinPayloadIn) (randNickTag : String) (now : ℚ)
    (hpw : (jsTruthyStr room.password &&
      room.password != sanitizePassword payload.password) = false) :
    (((handleJoin roomId (some room) sid payload randNickTag now).2.1 =
        JoinRoomResult.error "房间人数已满") ↔
      (mapHas room.members sid = false ∧
        MAX_ROOM_MEMBERS ≤ room.members.length)) ∧
    ((handleJoin roomId (some room) sid payload randNickTag now).2.1 =
        JoinRoomResult.error "房间人数已满" →
      (handleJoin roomId (some room) sid payload randNickTag now).1 = some room) := by
  unfold handleJoin joinEnsuredRoom
  dsimp only
  rw [hpw]
  simp only [Bool.false_eq_true, if_false]
  by_cases hfull : (!(mapHas room.members sid) &&
      decide (MAX_ROOM_MEMBERS ≤ room.members.length)) = true
  · rw [if_pos hfull]
    refine ⟨⟨fun _ => ?_, fun _ => rfl⟩, fun _ => rfl⟩
    have h1 := (Bool.and_eq_true_iff.mp hfull).1
    have h2 := (Bool.and_eq_true_iff.mp hfull).2
    refine ⟨?_, of_decide_eq_true h2⟩
    cases hx : mapHas room.members sid
    · rfl
    · rw [hx] at h1; exact absurd h1 (by decide)
  · rw [if_neg hfull]
    dsimp only
    refine ⟨⟨fun habs => ?_, fun hrhs => ?_⟩, fun habs => ?_⟩
    · exact absurd habs (by simp)
    · exfalso
      apply hfull
      rw [hrhs.1]
      simp [hrhs.2]
    · exact absurd habs (by simp)

/-- Demo room for the room-full witness: six members, the configured
maximum. -/
def fullDemoRoom : RoomState :=
  { createRoom "RROOM" "A" "r" none 0 with
    members := [("A", createTrackedMember "A" "a" true 0),
                ("B", createTrackedMember "B" "b" false 0),
                ("C", createTrackedMember "C" "c" false 0),
                ("D", createTrackedMember "D" "d" false 0),
                ("E", createTrackedMember "E" "e" false 0),
                ("F", createTrackedMember "F" "f" false 0)] }

/-- C5, witness: a seventh connection G joining the full demo room is
answered room_full and the room is unchanged. -/
theorem joinRoomFull_spec_witness :
    (handleJoin "RROOM" (some fullDemoRoom) "G"
        { nickname := "Greg", password := none, roomName := none } "42" 3).2.1 =
      JoinRoomResult.error "房间人数已满" ∧
    (handleJoin "RROOM" (some fullDemoRoom) "G"
        { nickname := "Greg", password := none, roomName := none } "42" 3).1 =
      some fullDemoRoom := by
  have h := joinRoomFull_spec "RROOM" fullDemoRoom "G"
    { nickname := "Greg", password := none, roomName := none } "42" 3 rfl
  have herr := h.1.mpr ⟨rfl, by decide⟩
  exact ⟨herr, h.2 herr⟩

/-! ## Member-table invariant (C4) -/

/-- The member-table invariant maintained by every command: at most
maxMembers entries, no duplicate keys, and each record's socketId equals
its key. -/
def InvMembers (ms : List (String × TrackedRoomMember)) : Prop :=
  ms.length ≤ MAX_ROOM_MEMBERS ∧ (mapKeys ms).Nodup ∧ ∀ q ∈ ms, q.2.socketId = q.1

/-- A proposition on the room when the registry slot is filled. -/
def optHolds {α : Type} (P : α → Prop) : Option α → Prop
  | none => True
  | some a => P a

theorem mapKeys_map {g : String × TrackedRoomMember → TrackedRoomMember}
    (ms : List (String × TrackedRoomMember)) :
    mapKeys (ms.map (fun p => (p.1, g p))) = mapKeys ms := by
  unfold mapKeys
  rw [List.map_map]
  rfl

theorem invMembers_map {g : String × TrackedRoomMember → TrackedRoomMember}
    (ms : List (String × TrackedRoomMember))
    (hg : ∀ p, (g p).socketId = p.2.socketId)
    (h : InvMembers ms) : InvMembers (ms.map (fun p => (p.1, g p))) := by
  obtain ⟨hlen, hnd, hsock⟩ := h
  refine ⟨by rw [List.length_map]; exact hlen, by rw [mapKeys_map]; exact hnd, ?_⟩
  intro q hq
  obtain ⟨p, hp, hpq⟩ := List.mem_map.mp hq
  rw [← hpq]
  show (g p).socketId = p.1
  rw [hg p]
  exact hsock p hp

theorem mapHas_eq_false_iff {α : Type} (ms : List (String × α)) (k : String) :
    mapHas ms k = false ↔ k ∉ mapKeys ms := by
  unfold mapHas mapKeys
  constructor
  · intro h hk
    obtain ⟨p, hp, hpk⟩ := List.mem_map.mp hk
    have : ms.any (fun p => p.1 == k) = true :=
      List.any_eq_true.mpr ⟨p, hp, by rw [hpk]; exact beq_self_eq_true k⟩
    rw [h] at this
    exact absurd this (by decide)
  · intro h
    cases hx : ms.any (fun p => p.1 == k) with
    | false => rfl
    | true =>
      obtain ⟨p, hp, hpk⟩ := List.any_eq_true.mp hx
      exact absurd (List.mem_map.mpr ⟨p, hp, eq_of_beq hpk⟩) h

theorem mapSet_absent {α : Type} {ms : List (String × α)} {k : String} (v : α)
    (h : mapHas ms k = false) : mapSet ms k v = ms ++ [(k, v)] := by
  unfold mapSet
  rw [show (ms.any (fun p => p.1 == k)) = mapHas ms k from rfl, h]
  simp

theorem mapKeys_mapSet_present {α : Type} {ms : List (String × α)} {k : String} (v : α)
    (h : mapHas ms k = true) : mapKeys (mapSet ms k v) = mapKeys ms := by
  unfold mapSet
  rw [show (ms.any (fun p => p.1 == k)) = mapHas ms k from rfl, h]
  simp only [if_true]
  unfold mapKeys
  rw [List.map_map]
  apply List.map_congr_left
  intro p _
  show (if p.1 == k then (k, v) else p).1 = p.1
  by_cases hp : (p.1 == k) = true
  · rw [if_pos hp]
    exact (eq_of_beq hp).symm
  · rw [if_neg hp]

theorem length_mapSet_present {α : Type} {ms : List (String × α)} {k : String} (v : α)
    (h : mapHas ms k = true) : (mapSet ms k v).length = ms.length := by
  unfold mapSet
  rw [show (ms.any (fun p => p.1 == k)) = mapHas ms k from rfl, h]
  simp

theorem invMembers_mapSet {ms : List (String × TrackedRoomMember)} {k : String}
    (v : TrackedRoomMember) (hv : v.socketId = k)
    (hlen : mapHas ms k = false → ms.length < MAX_ROOM_MEMBERS)
    (h : InvMembers ms) : InvMembers (mapSet ms k v) := by
  obtain ⟨hl, hnd, hsock⟩ := h
  cases hhas : mapHas ms k with
  | true =>
    refine ⟨by rw [length_mapSet_present v hhas]; exact hl,
      by rw [mapKeys_mapSet_present v hhas]; exact hnd, ?_⟩
    intro q hq
    unfold mapSet at hq
    rw [show (ms.any (fun p => p.1 == k)) = mapHas ms k from rfl, hhas] at hq
    simp only [if_true] at hq
    obtain ⟨p, hp, hpq⟩ := List.mem_map.mp hq
    by_cases hpk : (p.1 == k) = true
    · rw [if_pos hpk] at hpq
      rw [← hpq]
      exact hv
    · rw [if_neg hpk] at hpq
      rw [← hpq]
      exact hsock p hp
  | false =>
    rw [mapSet_absent v hhas]
    refine ⟨?_, ?_, ?_⟩
    · rw [List.length_append, List.length_singleton]
      exact hlen hhas
    · unfold mapKeys
      rw [List.map_append]
      apply List.Nodup.append hnd (List.nodup_singleton k)
      intro a ha hb
      rw [List.mem_singleton] at hb
      subst hb
      exact absurd ha ((mapHas_eq_false_iff ms a).mp hhas)
    · intro q hq
      rcases List.mem_append.mp hq with hq | hq
      · exact hsock q hq
      · rw [List.mem_singleton] at hq
        subst hq
        exact hv

theorem invMembers_mapDelete {ms : List (String × TrackedRoomMember)} (k : String)
    (h : InvMembers ms) : InvMembers (mapDelete ms k) := by
  obtain ⟨hl, hnd, hsock⟩ := h
  have hsub : List.Sublist (mapDelete ms k) ms := List.filter_sublist ms
  refine ⟨le_trans hsub.length_le hl, ?_, ?_⟩
  · show (List.map (fun p => p.1) (mapDelete ms k)).Nodup
    exact List.Nodup.sublist (hsub.map (fun p => p.1)) hnd
  · intro q hq
    exact hsock q (hsub.subset hq)

theorem applyBuffering_members (r : RoomState) (now : ℚ) :
    ((applyBuffering r now).1).members = r.members := by
  unfold applyBuffering
  dsimp only
  split
  · rfl
  · split
    · rfl
    · rfl

theorem applyBuffering_hostSocketId (r : RoomState) (now : ℚ) :
    ((applyBuffering r now).1).hostSocketId = r.hostSocketId := by
  unfold applyBuffering
  dsimp only
  split
  · rfl
  · split
    · rfl
    · rfl

theorem reassignHost_members (r : RoomState) :
    (reassignHostIfNeeded r).members = r.members := by
  unfold reassignHostIfNeeded
  split
  · rfl
  · split
    · split <;> rfl
    · rfl

theorem syncStartupGate_hostSocketId (r : RoomState) (now : ℚ) :
    ((syncStartupGate r now).1).hostSocketId = r.hostSocketId := by
  unfold syncStartupGate
  split
  · rfl
  · dsimp only
    rcases areAll_fst_cases r now with h | h <;>
      (split
       · rw [h] <;> rfl
       · split
         · rw [h] <;> rfl
         · show ((areAllMembersStartupReady r now).1).hostSocketId = r.hostSocketId
           rw [h] <;> rfl)

theorem invMembers_sync (r : RoomState) (now : ℚ) (h : InvMembers r.members) :
    InvMembers ((syncMemberStartupReadiness r now).members) :=
  invMembers_map _ (fun _ => rfl) h

theorem invMembers_gate (r : RoomState) (now : ℚ) (h : InvMembers r.members) :
    InvMembers (((syncStartupGate r now).1).members) := by
  rcases syncStartupGate_members r now with hm | hm
  · rw [hm]; exact h
  · rw [hm]; exact invMembers_sync r now h

theorem invMembers_gateBuffer (r : RoomState) (now : ℚ) (h : InvMembers r.members) :
    InvMembers (((applyBuffering ((syncStartupGate r now).1) now).1).members) := by
  rw [applyBuffering_members]
  exact invMembers_gate r now h

theorem mapGet_some_mem {α : Type} {ms : List (String × α)} {k : String} {v : α}
    (h : mapGet ms k = some v) : ∃ q ∈ ms, q.1 = k ∧ q.2 = v := by
  unfold mapGet at h
  obtain ⟨q, hq, hv⟩ := Option.map_eq_some'.mp h
  have hp := List.find?_some hq
  exact ⟨q, List.mem_of_find?_eq_some hq, eq_of_beq hp, hv⟩

theorem mapHas_of_mem {α : Type} {ms : List (String × α)} {k : String} {v : α}
    (h : (k, v) ∈ ms) : mapHas ms k = true :=
  List.any_eq_true.mpr ⟨(k, v), h, beq_self_eq_true k⟩

theorem mapHas_of_mapGet_some {α : Type} {ms : List (String × α)} {k : String} {v : α}
    (h : mapGet ms k = some v) : mapHas ms k = true := by
  obtain ⟨q, hq, hk, -⟩ := mapGet_some_mem h
  exact List.any_eq_true.mpr ⟨q, hq, by rw [hk]; exact beq_self_eq_true k⟩

theorem socketId_of_mapGet {ms : List (String × TrackedRoomMember)} {k : String}
    {v : TrackedRoomMember} (hinv : ∀ q ∈ ms, q.2.socketId = q.1)
    (h : mapGet ms k = some v) : v.socketId = k := by
  obtain ⟨q, hq, hk, hv⟩ := mapGet_some_mem h
  rw [← hv, hinv q hq]
  exact hk

theorem invMembers_clientBuffering (room : RoomState) (sid : String)
    (p : BufferingPayloadIn) (now : ℚ) (h : InvMembers room.members) :
    InvMembers (((handleClientBuffering room sid p now).1).members) := by
  unfold handleClientBuffering
  cases hm : mapGet room.members sid with
  | none => exact h
  | some member =>
    dsimp only
    have hsid0 : member.socketId = sid := socketId_of_mapGet h.2.2 hm
    have hsid : (bufferingUpdatedMember member p now).socketId = sid := hsid0
    have h1 : InvMembers (bufferingUpdatedRoom room sid member p now).members := by
      show InvMembers (mapSet room.members sid (bufferingUpdatedMember member p now))
      exact invMembers_mapSet _ hsid
        (fun hf => absurd (mapHas_of_mapGet_some hm) (by rw [hf]; decide)) h
    exact invMembers_gateBuffer _ now (invMembers_sync _ now h1)

theorem playbackControlFinish_members (room : RoomState) (sid : String)
    (p : PlaybackControlPayloadIn) (evs : List ServerEvent) (now : ℚ) :
    ((playbackControlFinish room sid p evs now).1).members = room.members := by
  unfold playbackControlFinish
  split
  · rfl
  · rfl

theorem handlePlaybackControl_members (room : RoomState) (sid : String)
    (p : PlaybackControlPayloadIn) (now : ℚ) :
    ((handlePlaybackControl room sid p now).1).members = room.members ∨
    ((handlePlaybackControl room sid p now).1).members =
      (syncMemberStartupReadiness room now).members := by
  unfold handlePlaybackControl
  dsimp only
  split
  · exact Or.inl rfl
  · split
    · split
      · rcases areAll_fst_cases room now with h | h
        · left
          show ((areAllMembersStartupReady room now).1).members = room.members
          rw [h]
        · right
          show ((areAllMembersStartupReady room now).1).members =
            (syncMemberStartupReadiness room now).members
          rw [h]
      · rw [playbackControlFinish_members]
        rcases areAll_fst_cases room now with h | h
        · left
          show ((areAllMembersStartupReady room now).1).members = room.members
          rw [h]
        · right
          show ((areAllMembersStartupReady room now).1).members =
            (syncMemberStartupReadiness room now).members
          rw [h]
    · rw [playbackControlFinish_members]
      exact Or.inl rfl

theorem invMembers_applyNewRoomMedia (r : RoomState) (hostSid : String)
    (media : MediaPublicInfo) (now : ℚ) (h : InvMembers r.members) :
    InvMembers ((applyNewRoomMedia r hostSid media now).members) := by
  unfold applyNewRoomMedia
  dsimp only
  exact invMembers_map _ (fun _ => rfl) h

theorem invMembers_selectMedia (room : RoomState) (sid : String)
    (m : MediaDescriptorIn) (now : ℚ) (h : InvMembers room.members) :
    InvMembers (((handleSelectMedia room sid m now).1).members) := by
  unfold handleSelectMedia
  cases hm : mapGet room.members sid with
  | none => exact h
  | some member =>
    dsimp only
    have hsid : member.socketId = sid := socketId_of_mapGet h.2.2 hm
    have hnotf : mapHas room.members sid = false → room.members.length < MAX_ROOM_MEMBERS :=
      fun hf => absurd (mapHas_of_mapGet_some hm) (by rw [hf]; decide)
    have h1 : InvMembers (mapSet room.members sid
        (resetMemberPlaybackState { member with
          selectedMediaName := some m.name
          selectedMediaSha256 := some m.sha256
          selectedMediaSize := some m.size
          selectedMediaDuration := m.duration })) :=
      invMembers_mapSet _ hsid hnotf h
    split
    · exact invMembers_applyNewRoomMedia _ sid _ now h1
    · have hhas1 : mapHas (mapSet room.members sid
          (resetMemberPlaybackState { member with
            selectedMediaName := some m.name
            selectedMediaSha256 := some m.sha256
            selectedMediaSize := some m.size
            selectedMediaDuration := m.duration })) sid = true :=
        mapHas_of_mem (mapSet_self_mem _ _ _)
      have h2 : ∀ mm : MediaMatchState, InvMembers (mapSet (mapSet room.members sid
          (resetMemberPlaybackState { member with
            selectedMediaName := some m.name
            selectedMediaSha256 := some m.sha256
            selectedMediaSize := some m.size
            selectedMediaDuration := m.duration })) sid
          { resetMemberPlaybackState { member with
              selectedMediaName := some m.name
              selectedMediaSha256 := some m.sha256
              selectedMediaSize := some m.size
              selectedMediaDuration := m.duration } with mediaMatchState := mm }) :=
        fun mm => invMembers_mapSet _ hsid (fun hf => by rw [hhas1] at hf; cases hf) h1
      split
      · exact h2 .missing
      · exact invMembers_gateBuffer _ now (invMembers_sync _ now (h2 _))

theorem handleRoomConfig_members (room : RoomState) (sid : String) (mode : SyncMode)
    (now : ℚ) : ((handleRoomConfig room sid mode now).1).members = room.members := by
  unfold handleRoomConfig
  split
  · rfl
  · dsimp only
    split
    · rfl
    · rw [applyBuffering_members]

theorem invMembers_mediaUpload (room : RoomState) (sid : String) (file : UploadedFileIn)
    (mid sha : String) (now : ℚ) (h : InvMembers room.members) :
    InvMembers (((handleMediaUpload room sid file mid sha now).1).members) := by
  unfold handleMediaUpload
  split
  · exact h
  · dsimp only
    exact invMembers_map _ (fun _ => rfl) h

theorem invMembers_removeMember (room : RoomState) (sid : String) (now : ℚ)
    (h : InvMembers room.members) :
    InvMembers (((removeMemberFromRoom room sid now).1).members) := by
  unfold removeMemberFromRoom
  dsimp only
  have h2 : InvMembers ((reassignHostIfNeeded
      { room with
        members := mapDelete room.members sid
        lastActiveAt := now }).members) := by
    rw [reassignHost_members]
    exact invMembers_mapDelete sid h
  split
  · exact h2
  · exact invMembers_gateBuffer _ now (invMembers_sync _ now h2)

theorem invMembers_nil : InvMembers ([] : List (String × TrackedRoomMember)) :=
  ⟨by decide, List.nodup_nil, fun q hq => absurd hq (List.not_mem_nil q)⟩

theorem invMembers_joinEnsured (room : RoomState) (sid : String) (nickname : String)
    (now : ℚ) (h : InvMembers room.members) :
    optHolds (fun r => InvMembers r.members)
      (joinEnsuredRoom room sid nickname now).1 := by
  unfold joinEnsuredRoom
  dsimp only
  split
  · exact h
  · rename_i hguard
    have hlen : mapHas room.members sid = false →
        room.members.length < MAX_ROOM_MEMBERS := by
      intro hf
      by_contra hge
      apply hguard
      rw [hf]
      show (!false && decide (MAX_ROOM_MEMBERS ≤ room.members.length)) = true
      rw [decide_eq_true (not_lt.mp hge)]
      rfl
    have h1 : ∀ v : TrackedRoomMember, v.socketId = sid →
        InvMembers (mapSet room.members sid v) :=
      fun v hv => invMembers_mapSet v hv hlen h
    split
    · split
      · show InvMembers (markPlayback _ _ _ now).members
        rw [show ∀ (X : RoomState) (pa : PlaybackPatch) (re : PlaybackReason),
          (markPlayback X pa re now).members = X.members from fun _ _ _ => rfl]
        exact invMembers_sync _ now (h1 _ rfl)
      · exact invMembers_sync _ now (h1 _ rfl)
    · exact h1 _ rfl

theorem invMembers_join (roomId : String) (st : Option RoomState) (sid : String)
    (payload : JoinPayloadIn) (tag : String) (now : ℚ)
    (h : optHolds (fun r => InvMembers r.members) st) :
    optHolds (fun r => InvMembers r.members)
      (handleJoin roomId st sid payload tag now).1 := by
  cases st with
  | none =>
    unfold handleJoin
    dsimp only
    simp only [Bool.false_eq_true, if_false]
    exact invMembers_joinEnsured _ sid _ now invMembers_nil
  | some room =>
    unfold handleJoin
    dsimp only
    split
    · exact h
    · exact invMembers_joinEnsured room sid _ now h

theorem invMembers_step (roomId : String) (st : Option RoomState) (c : RoomCommand)
    (now : ℚ) (h : optHolds (fun r => InvMembers r.members) st) :
    optHolds (fun r => InvMembers r.members) (stepRoom roomId st c now) := by
  cases c with
  | join sid payload tag => exact invMembers_join roomId st sid payload tag now h
  | leave sid =>
    cases st with
    | none => exact trivial
    | some r =>
      show InvMembers ((handleLeave r sid now).1).members
      unfold handleLeave
      split
      · exact invMembers_removeMember r sid now h
      · exact h
  | selectMedia sid m =>
    cases st with
    | none => exact trivial
    | some r => exact invMembers_selectMedia r sid m now h
  | playbackControl sid p =>
    cases st with
    | none => exact trivial
    | some r =>
      show InvMembers ((handlePlaybackControl r sid p now).1).members
      rcases handlePlaybackControl_members r sid p now with hm | hm
      · rw [hm]; exact h
      · rw [hm]; exact invMembers_sync r now h
  | clientBuffering sid p =>
    cases st with
    | none => exact trivial
    | some r => exact invMembers_clientBuffering r sid p now h
  | roomConfig sid mode =>
    cases st with
    | none => exact trivial
    | some r =>
      show InvMembers ((handleRoomConfig r sid mode now).1).members
      rw [handleRoomConfig_members]
      exact h
  | mediaUpload sid file mid sha =>
    cases st with
    | none => exact trivial
    | some r => exact invMembers_mediaUpload r sid file mid sha now h

theorem invMembers_run (roomId : String) (cmds : List (RoomCommand × ℚ)) :
    optHolds (fun r => InvMembers r.members) (runRoom roomId cmds) := by
  suffices hgen : ∀ st, optHolds (fun r => InvMembers r.members) st →
      optHolds (fun r => InvMembers r.members)
        (cmds.foldl (fun s c => stepRoom roomId s c.1 c.2) st) by
    exact hgen none trivial
  induction cmds with
  | nil => exact fun st hst => hst
  | cons c cs ih => exact fun st hst => ih _ (invMembers_step roomId st c.1 c.2 hst)

/-- The number of member records whose socketId equals the room's
hostSocketId: exactly the members whose snapshot isHost flag is set. -/
def hostFlagCount (room : RoomState) : ℕ :=
  room.members.countP (fun q => q.2.socketId == room.hostSocketId)

theorem snapshot_hostFlagCount (room : RoomState) (now : ℚ) :
    ((toRoomSnapshot room now).members.countP (fun m => m.isHost)) = hostFlagCount room := by
  unfold toRoomSnapshot hostFlagCount
  dsimp only
  rw [List.countP_append, List.countP_filter, List.countP_filter]
  have h1 : (fun (m : MemberSnapshot) => m.isHost && m.isHost) =
      (fun (m : MemberSnapshot) => m.isHost) := by
    funext m; exact Bool.and_self _
  have h2 : (fun (m : MemberSnapshot) => m.isHost && !m.isHost) =
      (fun (_ : MemberSnapshot) => false) := by
    funext m; exact Bool.and_not_self _
  rw [h1, h2, List.countP_false, List.countP_map]
  simp only [Function.const]
  rw [Nat.add_zero]
  rfl

theorem hostFlagCount_eq_count (room : RoomState)
    (hsock : ∀ q ∈ room.members, q.2.socketId = q.1) :
    hostFlagCount room = (mapKeys room.members).count room.hostSocketId := by
  unfold hostFlagCount
  rw [List.count_eq_countP]
  unfold mapKeys
  rw [List.countP_map]
  apply List.countP_congr
  intro q hq
  rw [hsock q hq]
  exact Iff.rfl

theorem hostFlag_le_and_iff (room : RoomState) (h : InvMembers room.members) :
    hostFlagCount room ≤ 1 ∧
    (mapHas room.members room.hostSocketId = true ↔ hostFlagCount room = 1) := by
  obtain ⟨-, hnd, hsock⟩ := h
  rw [hostFlagCount_eq_count room hsock]
  have hle := List.nodup_iff_count_le_one.mp hnd room.hostSocketId
  refine ⟨hle, ⟨fun hhas => ?_, fun hone => ?_⟩⟩
  · have hmem : room.hostSocketId ∈ mapKeys room.members := by
      by_contra hc
      have hfa := (mapHas_eq_false_iff room.members room.hostSocketId).mpr hc
      rw [hfa] at hhas
      exact absurd hhas (by decide)
    have hnz : (mapKeys room.members).count room.hostSocketId ≠ 0 :=
      fun hz => (List.count_eq_zero.mp hz) hmem
    omega
  · have hnz : (mapKeys room.members).count room.hostSocketId ≠ 0 := by omega
    have hmem : room.hostSocketId ∈ mapKeys room.members := by
      by_contra hc
      exact hnz (List.count_eq_zero.mpr hc)
    cases hx : mapHas room.members room.hostSocketId with
    | true => rfl
    | false => exact absurd hmem ((mapHas_eq_false_iff _ _).mp hx)

theorem removeMember_transfersHost (room : RoomState) (sid : String) (now : ℚ)
    (k : String) (v : TrackedRoomMember) (rest : List (String × TrackedRoomMember))
    (hhost : room.hostSocketId = sid)
    (hdel : mapDelete room.members sid = (k, v) :: rest)
    (hk : k ≠ "") :
    ((removeMemberFromRoom room sid now).1).hostSocketId = k := by
  have hnot : mapHas (mapDelete room.members sid) room.hostSocketId = false := by
    rw [hhost]
    cases hx : mapHas (mapDelete room.members sid) sid with
    | false => rfl
    | true =>
      obtain ⟨q, hq, hqk⟩ := List.any_eq_true.mp hx
      have hqf : q ∈ room.members.filter (fun p => p.1 != sid) := hq
      have hq2 := List.of_mem_filter hqf
      have hq3 : (q.1 != sid) = true := hq2
      rw [eq_of_beq hqk] at hq3
      exact absurd hq3 (by simp)
  have hroom1 : (reassignHostIfNeeded
      { room with
        members := mapDelete room.members sid
        lastActiveAt := now }).hostSocketId = k := by
    unfold reassignHostIfNeeded
    rw [if_neg (show ¬ (mapHas (mapDelete room.members sid) room.hostSocketId = true) by
      rw [hnot]; exact fun hc => absurd hc (by decide))]
    rw [hdel]
    simp only [List.head?_cons]
    rw [if_pos (bne_iff_ne.mpr hk)]
  have hne : ((reassignHostIfNeeded
      { room with
        members := mapDelete room.members sid
        lastActiveAt := now }).members).isEmpty = false := by
    rw [reassignHost_members]
    show (mapDelete room.members sid).isEmpty = false
    rw [hdel]
    rfl
  unfold removeMemberFromRoom
  dsimp only
  rw [hne]
  simp only [Bool.false_eq_true, if_false]
  rw [applyBuffering_hostSocketId, syncStartupGate_hostSocketId]
  exact hroom1

/-- C4, counterexample command sequence: A creates and joins the room,
A leaves (emptying it but leaving it registered), then B joins the stale
room.  The stale hostSocketId "A" is never reassigned on join. -/
def hostlessCmds : List (RoomCommand × ℚ) :=
  [(.join "A" { nickname := "Alice", password := none, roomName := none } "11", 0),
   (.leave "A", 1),
   (.join "B" { nickname := "Bob", password := none, roomName := none } "22", 2)]

/-- C4, counterexample: after join A, leave A, join B the room is
non-empty (one member) yet its snapshot carries zero is-host flags, so
"exactly one is-host flag iff the room is non-empty" fails. -/
theorem hostFlag_invariant_cex :
    ((runRoom "RROOM" hostlessCmds).map (fun r => r.members.length) = some 1) ∧
    ((runRoom "RROOM" hostlessCmds).map
      (fun r => (toRoomSnapshot r 3).members.countP (fun m => m.isHost)) = some 0) := by
  constructor <;> decide

/-- C4 (amended): for all command sequences on a single room, at every
point members.size ≤ maxMembers and at most one member carries the
is-host flag, with exactly one iff the room's hostSocketId is present in
the member table (which a room emptied and rejoined can violate, the
stale host id not being reassigned on join); and when the host leaves or
disconnects with members remaining, the host role transfers to the
earliest-joined remaining member, the first entry of the member map in
insertion order. -/
theorem memberInvariant_hostTransfer :
    (∀ (roomId : String) (cmds : List (RoomCommand × ℚ)) (now : ℚ),
      optHolds (fun r =>
        r.members.length ≤ MAX_ROOM_MEMBERS ∧
        ((toRoomSnapshot r now).members.countP (fun m => m.isHost)) ≤ 1 ∧
        (mapHas r.members r.hostSocketId = true ↔
          ((toRoomSnapshot r now).members.countP (fun m => m.isHost)) = 1))
        (runRoom roomId cmds)) ∧
    (∀ (room : RoomState) (sid : String) (now : ℚ) (k : String)
        (v : TrackedRoomMember) (rest : List (String × TrackedRoomMember)),
      room.hostSocketId = sid →
      mapDelete room.members sid = (k, v) :: rest → k ≠ "" →
      ((removeMemberFromRoom room sid now).1).hostSocketId = k) := by
  constructor
  · intro roomId cmds now
    have hinv := invMembers_run roomId cmds
    cases hrun : runRoom roomId cmds with
    | none => exact trivial
    | some r =>
      rw [hrun] at hinv
      have hi : InvMembers r.members := hinv
      show r.members.length ≤ MAX_ROOM_MEMBERS ∧ _ ∧ _
      refine ⟨hi.1, ?_, ?_⟩
      · rw [snapshot_hostFlagCount]
        exact (hostFlag_le_and_iff r hi).1
      · rw [snapshot_hostFlagCount]
        exact (hostFlag_le_and_iff r hi).2
  · intro room sid now k v rest h1 h2 h3
    exact removeMember_transfersHost room sid now k v rest h1 h2 h3

/-- Demo room for the host-transfer witness: host A and guest B. -/
def transferDemoRoom : RoomState :=
  { createRoom "RROOM" "A" "r" none 0 with
    members := [("A", createTrackedMember "A" "a" true 0),
                ("B", createTrackedMember "B" "b" false 0)] }

/-- C4, witness: a concrete run satisfying the invariant, and the host
role transferring to B when host A leaves the two-member demo room. -/
theorem memberInvariant_hostTransfer_witness :
    optHolds (fun r =>
      r.members.length ≤ MAX_ROOM_MEMBERS ∧
      ((toRoomSnapshot r 7).members.countP (fun m => m.isHost)) ≤ 1 ∧
      (mapHas r.members r.hostSocketId = true ↔
        ((toRoomSnapshot r 7).members.countP (fun m => m.isHost)) = 1))
      (runRoom "RROOM"
        [(.join "A" { nickname := "Alice", password := none, roomName := none } "11", 0)]) ∧
    ((removeMemberFromRoom transferDemoRoom "A" 5).1).hostSocketId = "B" :=
  ⟨memberInvariant_hostTransfer.1 "RROOM"
      [(.join "A" { nickname := "Alice", password := none, roomName := none } "11", 0)] 7,
   memberInvariant_hostTransfer.2 transferDemoRoom "A" 5 "B"
      (createTrackedMember "B" "b" false 0) [] rfl rfl (by decide)⟩

end WatchTogether
